import Mathlib

/-!
# Reverse-DNS enrichment of clients (`internal/home/rdns.go`, `internal/aghnet/localresolvers.go`)

A shallow embedding of the rDNS subsystem: the admission gate `RDNS.Begin`, the
resolution `RDNS.resolve`, the consumer `RDNS.workerLoop` and the fallback exchange of
`localResolvers.Exchange`, followed by the properties proved about them.

Conventions.
* A byte is a natural number below 256; `net.IP` and cache keys and values are byte lists.
* A Go pointer that may be nil is an `Option`; a Go `error` that may be nil is an
  `Option Error`.
* Calls to collaborators are recorded in explicit call lists, so that "is queried" and
  "is not invoked" are statements about data.
* A run-time panic is an explicit outcome.
-/

namespace RDNSModel

/-! ## Addresses, errors, messages -/

/-- The type `net.IP`: a slice of bytes (4 bytes, 16 bytes, or anything else). -/
abbrev IP := List Nat

/-- Whether a format string given to `fmt.Errorf` holds the wrapping verb `%w`
(`%%` is an escaped percent sign and starts no verb). -/
def hasVerbW : List Char → Bool
  | [] => false
  | '%' :: '%' :: cs => hasVerbW cs
  | '%' :: 'w' :: _ => true
  | _ :: cs => hasVerbW cs

/-- Go error values as the subsystem builds them.
* `const` is a constant error (`agherr.Error`) or an error of a collaborator;
* `fmtErrorf format args err` is the value of `fmt.Errorf(format, args..., err)`;
* `many message underlying` is the value of `agherr.Many(message, underlying...)`. -/
inductive Error where
  | const (msg : String)
  | fmtErrorf (format : String) (args : List IP) (err : Error)
  | many (message : String) (underlying : List Error)

/-- The errors an error value wraps directly: `fmt.Errorf` wraps its error operand exactly
when the format holds the verb `%w` (otherwise the operand is only printed into the text),
and an aggregate of `agherr.Many` wraps every underlying error. -/
def Error.wrapped : Error → List Error
  | .const _ => []
  | .fmtErrorf format _ err => if hasVerbW format.data then [err] else []
  | .many _ underlying => underlying

/-- The format string of an error built by `fmt.Errorf`, the message otherwise. -/
def Error.text : Error → String
  | .const msg => msg
  | .fmtErrorf format _ _ => format
  | .many message _ => message

/-- Whether the value is an aggregate built by `agherr.Many`. -/
def Error.isMany : Error → Bool
  | .many _ _ => true
  | _ => false

/-- The helper `agherr.Annotate(msg, &err)` as the deferred calls use it: a nil error stays
nil, a non-nil one is replaced by `fmt.Errorf(msg, err)`.  The message is a format string,
and the error is wrapped only when it ends in the verb, as in `"localResolvers: %w"`. -/
def Annotate (msg : String) : Option Error → Option Error
  | none => none
  | some err => some (.fmtErrorf msg [] err)

/-- The constant `rDNSEmptyAnswerErr`. -/
def rDNSEmptyAnswerErr : Error := .const "the answer section is empty"

/-- The constant `rDNSNotPTRErr`. -/
def rDNSNotPTRErr : Error := .const "the response is not a ptr"

/-- A resource record of an answer section: a PTR record with its target, or a record of
another type (the type number and its data are kept). -/
inductive RR where
  | PTR (Ptr : String)
  | other (rrtype : Nat) (data : String)
  deriving DecidableEq, Repr

/-- The question of a query (`dns.Question`). -/
structure Question where
  Name : String
  Qtype : Nat
  Qclass : Nat
  deriving DecidableEq, Repr

/-- The part of `dns.Msg` the subsystem reads and writes. -/
structure Msg where
  Id : Nat
  RecursionDesired : Bool
  Question : List Question
  Answer : List RR
  deriving DecidableEq, Repr

/-- The constant `dns.TypePTR`. -/
def TypePTR : Nat := 12

/-- The constant `dns.ClassINET`. -/
def ClassINET : Nat := 1

/-- The result pair `(resp *dns.Msg, err error)` of an exchange. -/
abbrev Exchanged := Option Msg × Option Error

/-! ## Default rDNS values -/

/-- The constant `defaultRDNSCacheSize`. -/
def defaultRDNSCacheSize : Nat := 10000

/-- The constant `defaultRDNSCacheTTL`. -/
def defaultRDNSCacheTTL : Nat := 1 * 60 * 60

/-- The constant `defaultRDNSipChanSize`. -/
def defaultRDNSipChanSize : Nat := 256

/-! ## The resolution cache -/

/-- Modelled from the spec: the Resolution Cache (`cache.Cache` of the external package
golibs), "a size-bounded, least-recently-used eviction cache mapping address to expiry
timestamp".  The entries are kept most recently used first. -/
structure Cache where
  items : List (List Nat × List Nat)

/-- The value stored under a key, if any. -/
def lookupItem (key : List Nat) : List (List Nat × List Nat) → Option (List Nat)
  | [] => none
  | (k, v) :: rest => if k = key then some v else lookupItem key rest

/-- The entries without those of a key. -/
def dropKey (key : List Nat) : List (List Nat × List Nat) → List (List Nat × List Nat)
  | [] => []
  | (k, v) :: rest => if k = key then dropKey key rest else (k, v) :: dropKey key rest

/-- The value stored under a key in the cache, if any. -/
def Cache.lookup (c : Cache) (key : List Nat) : Option (List Nat) :=
  lookupItem key c.items

/-- Modelled from the spec: `Get` returns the value of the key (nil, the empty slice, when
the key is absent) and marks the entry as the most recently used one. -/
def Cache.Get (c : Cache) (key : List Nat) : List Nat × Cache :=
  match lookupItem key c.items with
  | none => ([], c)
  | some v => (v, { items := (key, v) :: dropKey key c.items })

/-- Modelled from the spec: `Set` stores the value under the key as the most recently used
entry and evicts the least recently used entries beyond `maxCount`. -/
def Cache.Set (c : Cache) (maxCount : Nat) (key val : List Nat) : Cache :=
  { items := ((key, val) :: dropKey key c.items).take maxCount }

/-- The function `binary.BigEndian.PutUint64` on a fresh 8-byte slice. -/
def PutUint64 (v : Nat) : List Nat :=
  [v / 2 ^ 56 % 256, v / 2 ^ 48 % 256, v / 2 ^ 40 % 256, v / 2 ^ 32 % 256,
   v / 2 ^ 24 % 256, v / 2 ^ 16 % 256, v / 2 ^ 8 % 256, v % 256]

/-- The function `binary.BigEndian.Uint64`: it reads the first 8 bytes and panics (`none`)
on a shorter slice. -/
def Uint64 : List Nat → Option Nat
  | b0 :: b1 :: b2 :: b3 :: b4 :: b5 :: b6 :: b7 :: _ =>
    some (b7 + b6 * 2 ^ 8 + b5 * 2 ^ 16 + b4 * 2 ^ 24 + b3 * 2 ^ 32 + b2 * 2 ^ 40
      + b1 * 2 ^ 48 + b0 * 2 ^ 56)
  | _ => none

/-! ## The client registry -/

/-- The source kinds of a client record; only `ClientSourceRDNS` is named by the
subsystem. -/
inductive clientSource where
  | ClientSourceRDNS
  | otherSource (tag : Nat)
  deriving DecidableEq, Repr

/-- Modelled from the spec: the Client Registry (`clientsContainer`, whose source is not
at hand), consumed through `exists(addressKey, sourceKind)` and
`addHost(addressKey, hostname, sourceKind)`.  A record is an address key, a hostname and a
source kind. -/
structure clientsContainer where
  records : List (String × String × clientSource)

/-- Modelled from the spec: `exists(addressKey, sourceKind)` tells whether a client record
exists for the address key sourced from the given kind. -/
def clientsContainer.Exists (c : clientsContainer) (id : String) (source : clientSource) :
    Bool :=
  c.records.any (fun rec => rec.1 = id ∧ rec.2.2 = source)

/-- Modelled from the spec: `addHost(addressKey, hostname, sourceKind)` upserts the
record; the error it returns is nil ("current registry contract guarantees no error under
normal conditions"). -/
def clientsContainer.AddHost (c : clientsContainer) (id host : String)
    (source : clientSource) : clientsContainer × Option Error :=
  ({ records := (id, host, source) ::
      c.records.filter (fun rec => ¬ (rec.1 = id ∧ rec.2.2 = source)) }, none)

/-! ## The subsystem -/

/-- The library functions the subsystem calls: `net.IP.String`, `dns.ReverseAddr` (the
reverse-lookup name and an error) and the transaction id drawn by `dns.Id`. -/
structure Lib where
  ipString : IP → String
  ReverseAddr : String → String × Option Error
  Id : Nat

/-- The struct `RDNS`.  The collaborators are their operations: `dnsServer` is
`dnsServer.Exchange`, `ipDetector` is `ipDetector.IsLocallyServedNetwork`, `localResolvers`
is `localResolvers.Exchange`.  The channel `ipChan` is the list of the addresses it
buffers, oldest first; its capacity is `defaultRDNSipChanSize`. -/
structure RDNS where
  dnsServer : Msg → Exchanged
  clients : clientsContainer
  ipDetector : IP → Bool
  localResolvers : Msg → Exchanged
  ipChan : List IP
  ipCache : Cache

/-- How a call ends: it returns, or it panics. -/
inductive Exit where
  | returned
  | panicked
  deriving DecidableEq, Repr

/-- The second half of `RDNS.Begin`, reached when "the cache entry either expired or
doesn't exist": the entry is written with the expiry `now + defaultRDNSCacheTTL` (a
`uint64` sum), the registry is asked, and the address is offered to the channel without
blocking. -/
def beginMiss (lib : Lib) (now : Nat) (ip : IP) (r : RDNS) : RDNS :=
  let ttl := PutUint64 ((now + defaultRDNSCacheTTL) % 2 ^ 64)
  let r := { r with ipCache := r.ipCache.Set defaultRDNSCacheSize ip ttl }
  let id := lib.ipString ip
  if r.clients.Exists id .ClientSourceRDNS then
    r
  else if r.ipChan.length < defaultRDNSipChanSize then
    { r with ipChan := r.ipChan ++ [ip] }
  else
    r

/-- The method `RDNS.Begin` at the time `now` (`uint64(time.Now().Unix())`): the state it
leaves and how it ends. -/
def Begin (lib : Lib) (now : Nat) (ip : IP) (r : RDNS) : RDNS × Exit :=
  let got := r.ipCache.Get ip
  let expire := got.1
  let r := { r with ipCache := got.2 }
  if expire.length ≠ 0 then
    match Uint64 expire with
    | none => (r, .panicked)
    | some e => if e > now then (r, .returned) else (beginMiss lib now ip r, .returned)
  else
    (beginMiss lib now ip r, .returned)

/-! ## The local resolver set -/

/-- An upstream resolver (`upstream.Upstream`) is its `Exchange`. -/
abbrev Upstream := Msg → Exchanged

/-- The struct `localResolvers`: the configured resolvers, in configured order. -/
structure localResolvers where
  ups : List Upstream

/-- The loop and the final `return` of `localResolvers.Exchange`, before the deferred
annotation: the resolvers left to query, the index of the first of them, and the errors
collected so far (`errs`).  The second component lists the indices of the resolvers that
were queried, in the order of the queries. -/
def exchangeLoop (req : Msg) : List Upstream → Nat → List Error → Exchanged × List Nat
  | [], _, errs => ((none, some (.many "can't exchange" errs)), [])
  | u :: rest, i, errs =>
    match u req with
    | (_, some err) =>
      let res := exchangeLoop req rest (i + 1) (errs ++ [err])
      (res.1, i :: res.2)
    | (some resp, none) => ((some resp, none), [i])
    | (none, none) =>
      let res := exchangeLoop req rest (i + 1) errs
      (res.1, i :: res.2)

/-- The method `localResolvers.Exchange`: the returned pair, after the deferred
`agherr.Annotate("localResolvers", &err)`, and the indices of the resolvers queried. -/
def localResolvers.Exchange (lr : localResolvers) (req : Msg) : Exchanged × List Nat :=
  let res := exchangeLoop req lr.ups 0 []
  ((res.1.1, Annotate "localResolvers" res.1.2), res.2)

/-- Whether the pair returned by a resolver is a usable response: a non-nil response
without an error. -/
def usable : Exchanged → Bool
  | (some _, none) => true
  | _ => false

/-- The errors the resolvers return for a query, in configured order. -/
def resolverErrors (req : Msg) (ups : List Upstream) : List Error :=
  ups.filterMap (fun u => (u req).2)

/-- The constructor `NewLocalResolvers`, given the upstreams that
`upstream.AddressToUpstream` makes of the addresses (no address gives `ups: nil`). -/
def NewLocalResolvers (ups : List Upstream) : localResolvers :=
  { ups := ups }

/-! ## Resolution -/

/-- The function `strings.HasSuffix`. -/
def HasSuffix (s suffix : String) : Bool :=
  suffix.data.isSuffixOf s.data

/-- The function `strings.TrimSuffix`: `s` without the suffix when it ends with it, `s`
itself otherwise. -/
def TrimSuffix (s suffix : String) : String :=
  if HasSuffix s suffix then ⟨s.data.take (s.data.length - suffix.data.length)⟩ else s

/-- An exchange performed by `resolve`: on the local resolver set or on the upstream
dispatcher, with the query sent. -/
inductive Call where
  | localExchange (req : Msg)
  | serverExchange (req : Msg)
  deriving DecidableEq, Repr

/-- What a call of `resolve` yields: the pair `(host, err)` it returns, or a panic (the
dereference of a nil response). -/
inductive Resolved where
  | ret (host : String) (err : Option Error)
  | panic

/-- The query `resolve` builds for a reverse-lookup name. -/
def ptrQuery (lib : Lib) (arpa : String) : Msg :=
  { Id := lib.Id, RecursionDesired := true,
    Question := [{ Name := arpa, Qtype := TypePTR, Qclass := ClassINET }],
    Answer := [] }

/-- The exchange `resolve` selects for a query, with the record of the call. -/
def selectExchange (r : RDNS) (ip : IP) (msg : Msg) : Exchanged × List Call :=
  if r.ipDetector ip then
    (r.localResolvers msg, [.localExchange msg])
  else
    (r.dnsServer msg, [.serverExchange msg])

/-- The method `RDNS.resolve`: what it yields and the exchanges it performed. -/
def resolve (lib : Lib) (r : RDNS) (ip : IP) : Resolved × List Call :=
  match lib.ReverseAddr (lib.ipString ip) with
  | (_, some err) => (.ret "" (some (.fmtErrorf "reversing %q: %w" [ip] err)), [])
  | (arpa, none) =>
    let msg := ptrQuery lib arpa
    let ex := selectExchange r ip msg
    match ex.1 with
    | (_, some err) =>
      (.ret "" (some (.fmtErrorf "performing lookup for %q: %w" [ip] err)), ex.2)
    | (none, none) => (.panic, ex.2)
    | (some resp, none) =>
      match resp.Answer with
      | [] => (.ret "" (some (.fmtErrorf "lookup for %q: %w" [ip] rDNSEmptyAnswerErr)), ex.2)
      | .PTR ptr :: _ => (.ret (TrimSuffix ptr ".") none, ex.2)
      | _ :: _ => (.ret "" (some (.fmtErrorf "type checking: %w" [] rDNSNotPTRErr)), ex.2)

/-! ## The worker loop -/

/-- How the worker loop ends: the channel was closed and drained, or a panic left the
loop (the deferred `agherr.LogPanic` runs when the function is already unwinding). -/
inductive LoopEnd where
  | closed
  | panicked
  deriving DecidableEq, Repr

/-- What a run of the worker loop did: the registry it leaves, the `AddHost` calls it
made (in order), the addresses it took from the channel and passed to `resolve` (in
order), and how it ended. -/
structure LoopRun where
  clients : clientsContainer
  added : List (String × String × clientSource)
  taken : List IP
  fin : LoopEnd

/-- The method `RDNS.workerLoop` over the addresses the channel delivers before it is
closed.  `addHost` is the registry's `AddHost`; its error is logged and nothing else. -/
def workerLoop (lib : Lib)
    (addHost : clientsContainer → String → String → clientSource →
      clientsContainer × Option Error)
    (r : RDNS) : List IP → LoopRun
  | [] => { clients := r.clients, added := [], taken := [], fin := .closed }
  | ip :: rest =>
    match (resolve lib r ip).1 with
    | .panic => { clients := r.clients, added := [], taken := [ip], fin := .panicked }
    | .ret _ (some _) =>
      let run := workerLoop lib addHost r rest
      { run with taken := ip :: run.taken }
    | .ret host none =>
      let id := lib.ipString ip
      let res := addHost r.clients id host .ClientSourceRDNS
      let run := workerLoop lib addHost { r with clients := res.1 } rest
      { run with added := (id, host, .ClientSourceRDNS) :: run.added, taken := ip :: run.taken }

/-! ## A concrete configuration

The configuration of `TestRDNS_Resolve`: one upstream that answers the reverse names of
`1.1.1.1` and `192.168.1.1`, used both as the upstream dispatcher and as the local
resolver. -/

/-- Decimal digits of a number. -/
def uitoa (n : Nat) : String := toString n

/-- The textual form `net.IP.String` of a 4-byte address, and of a 16-byte address that
`To4` maps to one; other values are not rendered here. -/
def ip4String : IP → String
  | [a, b, c, d] => uitoa a ++ "." ++ uitoa b ++ "." ++ uitoa c ++ "." ++ uitoa d
  | [0, 0, 0, 0, 0, 0, 0, 0, 0, 0, 255, 255, a, b, c, d] =>
    uitoa a ++ "." ++ uitoa b ++ "." ++ uitoa c ++ "." ++ uitoa d
  | [] => "<nil>"
  | _ => "?"

/-- The reverse-lookup names of the two addresses of the test; any other text is
refused. -/
def testReverseAddr (addr : String) : String × Option Error :=
  if addr = "1.1.1.1" then ("1.1.1.1.in-addr.arpa.", none)
  else if addr = "192.168.1.1" then ("1.1.168.192.in-addr.arpa.", none)
  else ("", some (.const ("unrecognized address: " ++ addr)))

/-- The library functions of the test. -/
def testLib : Lib :=
  { ipString := ip4String, ReverseAddr := testReverseAddr, Id := 1 }

/-- The upstream of the test: the PTR answer `one.one.one.one.` for the reverse name of
`1.1.1.1`, the PTR answer `local.domain.` for the reverse name of `192.168.1.1`, and an
empty answer section for any other question. -/
def testUpstream : Upstream := fun req =>
  match req.Question with
  | [q] =>
    if q.Name = "1.1.1.1.in-addr.arpa." then
      (some { req with Answer := [.PTR "one.one.one.one."] }, none)
    else if q.Name = "1.1.168.192.in-addr.arpa." then
      (some { req with Answer := [.PTR "local.domain."] }, none)
    else (some { req with Answer := [] }, none)
  | _ => (some { req with Answer := [] }, none)

/-- The classifier of the test on the two addresses: `192.168.0.0/16` is locally
served. -/
def testIsLocallyServedNetwork : IP → Bool
  | 192 :: 168 :: _ => true
  | _ => false

/-- The subsystem of the test, with an empty registry, channel and cache. -/
def testRDNS : RDNS :=
  { dnsServer := testUpstream, clients := { records := [] },
    ipDetector := testIsLocallyServedNetwork, localResolvers := testUpstream,
    ipChan := [], ipCache := { items := [] } }

/-- The subsystem of the test after `Begin(1.1.1.1)` at the time 6400 and after the worker
loop has taken the address from the channel: the cache holds, for `1.1.1.1`, an entry that
expires at the time 10000. -/
def expiringRDNS : RDNS :=
  { (Begin testLib 6400 [1, 1, 1, 1] testRDNS).1 with ipChan := [] }

/-- The subsystem of the test in a state where the channel holds its full capacity. -/
def fullRDNS : RDNS :=
  { testRDNS with ipChan := List.replicate defaultRDNSipChanSize [10, 0, 0, 1] }

/-- The subsystem of the test in a state where the registry holds a record for
`1.1.1.1` under the rDNS source. -/
def registeredRDNS : RDNS :=
  { testRDNS with
    clients := { records := [("1.1.1.1", "one.one.one.one", .ClientSourceRDNS)] } }

/-- An upstream whose answer section is empty. -/
def emptyUpstream : Upstream := fun req => (some { req with Answer := [] }, none)

/-- An upstream whose answer section holds a CNAME record (type 5) followed by a PTR
record. -/
def cnameFirstUpstream : Upstream := fun req =>
  (some { req with Answer := [.other 5 "alias.example.", .PTR "host.example."] }, none)

/-- The subsystem of the test with another upstream dispatcher and another local
resolver set. -/
def testRDNSWith (server locals : Upstream) : RDNS :=
  { testRDNS with dnsServer := server, localResolvers := locals }

/-- An upstream that fails with the given error. -/
def errUpstream (msg : String) : Upstream := fun _ => (none, some (.const msg))

/-- An upstream that returns a nil response and a nil error. -/
def nilUpstream : Upstream := fun _ => (none, none)

/-- The `AddHost` call the worker loop makes for an address once `resolve` has returned:
the arguments `(ip.String(), host, ClientSourceRDNS)` when `resolve` succeeded, no call
when it failed. -/
def addHostCall (lib : Lib) (r : RDNS) (ip : IP) : Option (String × String × clientSource) :=
  match (resolve lib r ip).1 with
  | .ret host none => some (lib.ipString ip, host, .ClientSourceRDNS)
  | _ => none

/-- The 16-byte form of the IPv4 address `a.b.c.d` (`net.IPv4(a, b, c, d)`): the
IPv4-mapped prefix followed by the four bytes. -/
def IPv4 (a b c d : Nat) : IP :=
  [0, 0, 0, 0, 0, 0, 0, 0, 0, 0, 255, 255, a, b, c, d]

/-- An upstream whose PTR target ends with two dots. -/
def doubleDotUpstream : Upstream := fun req =>
  (some { req with Answer := [.PTR "host.example.."] }, none)

/-- A registry whose `AddHost` always fails and stores nothing. -/
def failingAddHost (c : clientsContainer) (_id _host : String) (_source : clientSource) :
    clientsContainer × Option Error :=
  (c, some (.const "registry is read-only"))

/-- The subsystem of the test whose local resolver set is the default implementation over
the given resolvers. -/
def testRDNSLocal (lr : localResolvers) : RDNS :=
  { testRDNS with localResolvers := fun req => (lr.Exchange req).1 }

theorem lookupItem_dropKey_ne (key k : List Nat) (l : List (List Nat × List Nat))
    (h : k ≠ key) :
    lookupItem k (dropKey key l) = lookupItem k l := by
  induction l with
  | nil => rfl
  | cons e rest ih =>
    obtain ⟨a, b⟩ := e
    by_cases ha : a = key
    · subst ha
      have hak : ¬ a = k := fun hh => h hh.symm
      simp [dropKey, lookupItem, hak, ih]
    · by_cases hk : a = k
      · subst hk
        simp [dropKey, lookupItem, ha]
      · simp [dropKey, lookupItem, ha, hk, ih]

theorem Cache.Get_fst (c : Cache) (key : List Nat) :
    (c.Get key).1 = (c.lookup key).getD [] := by
  unfold Cache.Get Cache.lookup
  cases lookupItem key c.items <;> rfl

theorem Cache.Get_lookup (c : Cache) (key k : List Nat) :
    (c.Get key).2.lookup k = c.lookup k := by
  unfold Cache.Get Cache.lookup
  cases hl : lookupItem key c.items with
  | none => rfl
  | some v =>
    by_cases hk : key = k
    · subst hk
      simp [lookupItem, hl]
    · have hk2 : k ≠ key := fun hh => hk hh.symm
      simp [lookupItem, hk, lookupItem_dropKey_ne key k c.items hk2]

theorem Cache.Set_lookup (c : Cache) (n : Nat) (key val : List Nat) :
    (c.Set (n + 1) key val).lookup key = some val := by
  simp [Cache.Set, Cache.lookup, List.take, lookupItem]

theorem Uint64_PutUint64 (v : Nat) (h : v < 2 ^ 64) : Uint64 (PutUint64 v) = some v := by
  simp only [PutUint64, Uint64, Option.some.injEq]
  norm_num at h ⊢
  omega

theorem PutUint64_length (v : Nat) : (PutUint64 v).length = 8 := rfl

/-! ## Lemmas on `Begin` -/

theorem beginMiss_lookup (lib : Lib) (now : Nat) (ip : IP) (r : RDNS) :
    (beginMiss lib now ip r).ipCache.lookup ip
      = some (PutUint64 ((now + defaultRDNSCacheTTL) % 2 ^ 64)) := by
  have h := Cache.Set_lookup r.ipCache 9999 ip (PutUint64 ((now + defaultRDNSCacheTTL) % 2 ^ 64))
  unfold beginMiss
  simp only [defaultRDNSCacheSize]
  split
  · exact h
  · split
    · exact h
    · exact h

theorem beginMiss_ipChan (lib : Lib) (now : Nat) (ip : IP) (r : RDNS) :
    (beginMiss lib now ip r).ipChan =
      if r.clients.Exists (lib.ipString ip) .ClientSourceRDNS then r.ipChan
      else if r.ipChan.length < defaultRDNSipChanSize then r.ipChan ++ [ip]
      else r.ipChan := by
  unfold beginMiss
  simp only []
  split
  · rfl
  · split <;> rfl

theorem Begin_live (lib : Lib) (now : Nat) (ip : IP) (r : RDNS) (v : List Nat) (e : Nat)
    (hv : r.ipCache.lookup ip = some v) (he : Uint64 v = some e) (hlt : now < e) :
    Begin lib now ip r = ({ r with ipCache := (r.ipCache.Get ip).2 }, .returned) := by
  have hlen : v.length ≠ 0 := by
    intro h0
    have : v = [] := List.length_eq_zero.mp h0
    subst this
    simp [Uint64] at he
  unfold Begin
  simp only [Cache.Get_fst, hv, Option.getD_some, he]
  simp [hlen, hlt]

theorem Begin_cases (lib : Lib) (now : Nat) (ip : IP) (r : RDNS) :
    (∃ v, r.ipCache.lookup ip = some v ∧ Uint64 v = none ∧ v.length ≠ 0 ∧
        Begin lib now ip r = ({ r with ipCache := (r.ipCache.Get ip).2 }, .panicked)) ∨
    (∃ v e, r.ipCache.lookup ip = some v ∧ Uint64 v = some e ∧ now < e ∧
        Begin lib now ip r = ({ r with ipCache := (r.ipCache.Get ip).2 }, .returned)) ∨
    (Begin lib now ip r
        = (beginMiss lib now ip { r with ipCache := (r.ipCache.Get ip).2 }, .returned)) := by
  cases hv : r.ipCache.lookup ip with
  | none =>
    right; right
    unfold Begin
    simp [Cache.Get_fst, hv]
  | some v =>
    by_cases hlen : v.length = 0
    · right; right
      unfold Begin
      simp [Cache.Get_fst, hv, hlen]
    · cases he : Uint64 v with
      | none =>
        left
        refine ⟨v, rfl, he, hlen, ?_⟩
        unfold Begin
        simp [Cache.Get_fst, hv, hlen, he]
      | some e =>
        by_cases hlt : now < e
        · right; left
          exact ⟨v, e, rfl, he, hlt, Begin_live lib now ip r v e hv he hlt⟩
        · right; right
          unfold Begin
          simp [Cache.Get_fst, hv, hlen, he, hlt]

/-! ## Properties of `Begin` -/

/-- C1 (as stated, refuted): in the state `expiringRDNS` the entry of `1.1.1.1`, written
by a `Begin` at the time 6400, expires at 10000.  `Begin` at the time 9999 is suppressed
and leaves the entry in place (it is not evicted), and `Begin` at the time 10000, inside
the window `9999 <= 10000 < 9999 + 3600`, finds it expired: the second call rewrites the
entry and appends the address to the queue. -/
theorem Begin_twice_expiring_counterexample :
    9999 ≤ 10000 ∧ 10000 < 9999 + defaultRDNSCacheTTL ∧
    expiringRDNS.ipCache.lookup [1, 1, 1, 1] = some (PutUint64 10000) ∧
    (Begin testLib 9999 [1, 1, 1, 1] expiringRDNS).2 = .returned ∧
    (Begin testLib 9999 [1, 1, 1, 1] expiringRDNS).1.ipCache.lookup [1, 1, 1, 1]
      = some (PutUint64 10000) ∧
    (Begin testLib 9999 [1, 1, 1, 1] expiringRDNS).1.ipChan = [] ∧
    (Begin testLib 10000 [1, 1, 1, 1]
        (Begin testLib 9999 [1, 1, 1, 1] expiringRDNS).1).1.ipChan = [[1, 1, 1, 1]] ∧
    (Begin testLib 10000 [1, 1, 1, 1]
        (Begin testLib 9999 [1, 1, 1, 1] expiringRDNS).1).1.ipCache.lookup [1, 1, 1, 1]
      = some (PutUint64 13600) := by
  refine ⟨by decide, by decide, ?_, ?_, ?_, ?_, ?_, ?_⟩ <;> rfl

/-- C1 (amended): `Begin(ip)` at `t1` returns and leaves `r1`; the second `Begin(ip)` runs
at `t2 < t1 + 3600` (the expiry `t1 + 3600` fits in 64 bits) in any state
`m` whose cache entry of `ip` is the one of `r1` (not evicted, not rewritten); and there is
no intervening expiry: an entry that was live at `t1` is still live at `t2`.  Then the
first call appends `ip` at most once, and the second call returns with the queue unchanged
and the content of the cache unchanged (only the recency of the entry is refreshed). -/
theorem Begin_twice_enqueues_once (lib : Lib) (ip : IP) (r r1 m : RDNS) (t1 t2 : Nat)
    (hwin : t2 < t1 + defaultRDNSCacheTTL)
    (h64 : t1 + defaultRDNSCacheTTL < 2 ^ 64)
    (hfirst : Begin lib t1 ip r = (r1, .returned))
    (hkept : m.ipCache.lookup ip = r1.ipCache.lookup ip)
    (hlive : ∀ v e, r.ipCache.lookup ip = some v → Uint64 v = some e → t1 < e → t2 < e) :
    (r1.ipChan = r.ipChan ∨ r1.ipChan = r.ipChan ++ [ip]) ∧
    (Begin lib t2 ip m).2 = .returned ∧
    (Begin lib t2 ip m).1.ipChan = m.ipChan ∧
    (Begin lib t2 ip m).1.clients = m.clients ∧
    (∀ k, (Begin lib t2 ip m).1.ipCache.lookup k = m.ipCache.lookup k) := by
  have second : ∀ v e, m.ipCache.lookup ip = some v → Uint64 v = some e → t2 < e →
      (Begin lib t2 ip m).2 = .returned ∧ (Begin lib t2 ip m).1.ipChan = m.ipChan ∧
      (Begin lib t2 ip m).1.clients = m.clients ∧
      (∀ k, (Begin lib t2 ip m).1.ipCache.lookup k = m.ipCache.lookup k) := by
    intro v e hv he hlt
    rw [Begin_live lib t2 ip m v e hv he hlt]
    exact ⟨rfl, rfl, rfl, fun k => Cache.Get_lookup m.ipCache ip k⟩
  rcases Begin_cases lib t1 ip r with ⟨v, _, _, _, hB⟩ | ⟨v, e, hv, he, hlt, hB⟩ | hB
  · rw [hB] at hfirst
    cases hfirst
  · rw [hB] at hfirst
    cases hfirst
    refine ⟨Or.inl rfl, ?_⟩
    have hm : m.ipCache.lookup ip = some v := by
      rw [hkept]
      show (r.ipCache.Get ip).2.lookup ip = some v
      rw [Cache.Get_lookup, hv]
    exact second v e hm he (hlive v e hv he hlt)
  · rw [hB] at hfirst
    cases hfirst
    constructor
    · rw [beginMiss_ipChan]
      show (if _ then r.ipChan else if _ then r.ipChan ++ [ip] else r.ipChan) = _ ∨ _
      split
      · exact Or.inl rfl
      · split
        · exact Or.inr rfl
        · exact Or.inl rfl
    · have hmod : (t1 + defaultRDNSCacheTTL) % 2 ^ 64 = t1 + defaultRDNSCacheTTL :=
        Nat.mod_eq_of_lt h64
      have hm : m.ipCache.lookup ip = some (PutUint64 (t1 + defaultRDNSCacheTTL)) := by
        rw [hkept, beginMiss_lookup, hmod]
      exact second _ _ hm (Uint64_PutUint64 _ h64) hwin

/-- Witness of C1: the address `1.1.1.1`, first seen at the time 100 and seen again at the
time 200, is appended once. -/
theorem Begin_twice_enqueues_once_witness :
    (Begin testLib 100 [1, 1, 1, 1] testRDNS).1.ipChan = [[1, 1, 1, 1]] ∧
    ((Begin testLib 100 [1, 1, 1, 1] testRDNS).1.ipChan = testRDNS.ipChan ∨
      (Begin testLib 100 [1, 1, 1, 1] testRDNS).1.ipChan = testRDNS.ipChan ++ [[1, 1, 1, 1]]) ∧
    (Begin testLib 200 [1, 1, 1, 1] (Begin testLib 100 [1, 1, 1, 1] testRDNS).1).2
      = .returned ∧
    (Begin testLib 200 [1, 1, 1, 1] (Begin testLib 100 [1, 1, 1, 1] testRDNS).1).1.ipChan
      = (Begin testLib 100 [1, 1, 1, 1] testRDNS).1.ipChan :=
  have h := Begin_twice_enqueues_once testLib [1, 1, 1, 1] testRDNS
    (Begin testLib 100 [1, 1, 1, 1] testRDNS).1 (Begin testLib 100 [1, 1, 1, 1] testRDNS).1
    100 200 (by decide) (by decide) rfl rfl
    (fun v e hv => by simp [Cache.lookup, lookupItem, testRDNS] at hv)
  ⟨rfl, h.1, h.2.1, h.2.2.1⟩

/-- C2: in every state in which the registry holds a record for `ip.String()` under the
rDNS source, `Begin(ip)` leaves the admission queue as it was, whatever the cache holds
for `ip` and however the call ends. -/
theorem Begin_registered_not_enqueued (lib : Lib) (now : Nat) (ip : IP) (r : RDNS)
    (hreg : r.clients.Exists (lib.ipString ip) .ClientSourceRDNS = true) :
    (Begin lib now ip r).1.ipChan = r.ipChan := by
  rcases Begin_cases lib now ip r with ⟨v, _, _, _, hB⟩ | ⟨v, e, _, _, _, hB⟩ | hB
  · rw [hB]
  · rw [hB]
  · rw [hB, beginMiss_ipChan]
    show (if r.clients.Exists (lib.ipString ip) .ClientSourceRDNS = true then r.ipChan
      else _) = r.ipChan
    rw [if_pos hreg]

/-- Witness of C2: `1.1.1.1` is registered under the rDNS source and uncached; `Begin`
leaves the empty queue empty. -/
theorem Begin_registered_not_enqueued_witness :
    registeredRDNS.clients.Exists (testLib.ipString [1, 1, 1, 1]) .ClientSourceRDNS = true ∧
    (Begin testLib 100 [1, 1, 1, 1] registeredRDNS).1.ipChan = registeredRDNS.ipChan :=
  ⟨by decide, Begin_registered_not_enqueued testLib 100 [1, 1, 1, 1] registeredRDNS (by decide)⟩

/-- C3: when the admission queue holds its full capacity (256 addresses) and `ip` is
uncached, `Begin(ip)` returns (the send does not block and nothing is reported) and the
queue is exactly as it was, so its length stays within the capacity; this holds whether or
not the registry holds `ip`. -/
theorem Begin_full_queue_drops (lib : Lib) (now : Nat) (ip : IP) (r : RDNS)
    (hfull : r.ipChan.length = defaultRDNSipChanSize)
    (huncached : r.ipCache.lookup ip = none) :
    (Begin lib now ip r).2 = .returned ∧
    (Begin lib now ip r).1.ipChan = r.ipChan ∧
    (Begin lib now ip r).1.ipChan.length ≤ defaultRDNSipChanSize := by
  have hB : Begin lib now ip r
      = (beginMiss lib now ip { r with ipCache := (r.ipCache.Get ip).2 }, .returned) := by
    unfold Begin
    simp [Cache.Get_fst, huncached]
  have hq : (Begin lib now ip r).1.ipChan = r.ipChan := by
    rw [hB, beginMiss_ipChan]
    show (if _ then r.ipChan else if r.ipChan.length < defaultRDNSipChanSize then _
      else r.ipChan) = r.ipChan
    rw [hfull]
    simp
  refine ⟨by rw [hB], hq, ?_⟩
  rw [hq, hfull]

/-- Witness of C3: the queue holds 256 addresses and `1.1.1.1` is uncached and not
registered. -/
theorem Begin_full_queue_drops_witness :
    fullRDNS.ipChan.length = defaultRDNSipChanSize ∧
    fullRDNS.ipCache.lookup [1, 1, 1, 1] = none ∧
    fullRDNS.clients.Exists (testLib.ipString [1, 1, 1, 1]) .ClientSourceRDNS = false ∧
    (Begin testLib 100 [1, 1, 1, 1] fullRDNS).2 = .returned ∧
    (Begin testLib 100 [1, 1, 1, 1] fullRDNS).1.ipChan = fullRDNS.ipChan ∧
    (Begin testLib 100 [1, 1, 1, 1] fullRDNS).1.ipChan.length ≤ defaultRDNSipChanSize :=
  ⟨by simp [fullRDNS], rfl, rfl,
    Begin_full_queue_drops testLib 100 [1, 1, 1, 1] fullRDNS (by simp [fullRDNS]) rfl⟩

/-! ## Properties of `resolve` -/

theorem selectExchange_fst (r : RDNS) (ip : IP) (msg : Msg) :
    (selectExchange r ip msg).1
      = (if r.ipDetector ip then r.localResolvers else r.dnsServer) msg := by
  unfold selectExchange
  cases r.ipDetector ip <;> rfl

/-- C4: for an address that can be reversed, `resolve` performs exactly one exchange, with
the PTR query of the reverse name: on the local resolver set when
`IsLocallyServedNetwork(ip)` holds and on the upstream dispatcher otherwise.  What
`resolve` yields is made of the reply of that selected collaborator to that query (its
error is wrapped, its nil response is dereferenced, its answer section is read), and it is
the same whatever the other collaborator would return. -/
theorem resolve_dispatch_exclusive (lib : Lib) (r : RDNS) (ip : IP) (arpa : String)
    (hrev : lib.ReverseAddr (lib.ipString ip) = (arpa, none)) :
    (resolve lib r ip).2
      = [if r.ipDetector ip then Call.localExchange (ptrQuery lib arpa)
         else Call.serverExchange (ptrQuery lib arpa)] ∧
    (r.ipDetector ip = true → ∀ other : Msg → Exchanged,
      resolve lib { r with dnsServer := other } ip = resolve lib r ip) ∧
    (r.ipDetector ip = false → ∀ other : Msg → Exchanged,
      resolve lib { r with localResolvers := other } ip = resolve lib r ip) ∧
    (∀ (resp : Option Msg) (e : Error),
      (if r.ipDetector ip then r.localResolvers else r.dnsServer) (ptrQuery lib arpa)
        = (resp, some e) →
      (resolve lib r ip).1
        = .ret "" (some (.fmtErrorf "performing lookup for %q: %w" [ip] e))) ∧
    ((if r.ipDetector ip then r.localResolvers else r.dnsServer) (ptrQuery lib arpa)
        = (none, none) →
      (resolve lib r ip).1 = .panic) ∧
    (∀ resp : Msg,
      (if r.ipDetector ip then r.localResolvers else r.dnsServer) (ptrQuery lib arpa)
        = (some resp, none) →
      (resp.Answer = [] →
        (resolve lib r ip).1
          = .ret "" (some (.fmtErrorf "lookup for %q: %w" [ip] rDNSEmptyAnswerErr))) ∧
      (∀ p rest, resp.Answer = .PTR p :: rest →
        (resolve lib r ip).1 = .ret (TrimSuffix p ".") none) ∧
      (∀ rrtype data rest, resp.Answer = .other rrtype data :: rest →
        (resolve lib r ip).1
          = .ret "" (some (.fmtErrorf "type checking: %w" [] rDNSNotPTRErr)))) := by
  refine ⟨?_, ?_, ?_, ?_, ?_, ?_⟩
  · unfold resolve
    simp only [hrev, selectExchange]
    cases hd : r.ipDetector ip
    · simp only [Bool.false_eq_true, if_false]
      rcases hx : r.dnsServer (ptrQuery lib arpa) with ⟨_ | resp, _ | err⟩
      · rfl
      · rfl
      · simp only []
        rcases ha : resp.Answer with _ | ⟨_ | _, _⟩ <;> rfl
      · rfl
    · simp only [if_true]
      rcases hx : r.localResolvers (ptrQuery lib arpa) with ⟨_ | resp, _ | err⟩
      · rfl
      · rfl
      · simp only []
        rcases ha : resp.Answer with _ | ⟨_ | _, _⟩ <;> rfl
      · rfl
  · intro hd other
    unfold resolve
    simp only [hrev, selectExchange, hd, if_true]
  · intro hd other
    unfold resolve
    simp only [hrev, selectExchange, hd, Bool.false_eq_true, if_false]
  · intro resp e hx
    rw [← selectExchange_fst] at hx
    unfold resolve
    simp only [hrev, hx]
  · intro hx
    rw [← selectExchange_fst] at hx
    unfold resolve
    simp only [hrev, hx]
  · intro resp hx
    rw [← selectExchange_fst] at hx
    refine ⟨?_, ?_, ?_⟩
    · intro ha
      unfold resolve
      simp only [hrev, hx, ha]
    · intro p rest ha
      unfold resolve
      simp only [hrev, hx, ha]
    · intro rrtype data rest ha
      unfold resolve
      simp only [hrev, hx, ha]

/-- Witness of C4: `192.168.1.1` is locally served and goes to the local resolver set
only: the host is the one the local resolver answers, whatever the upstream dispatcher
does, and when the local resolver fails instead, `resolve` fails with its error although
the upstream dispatcher would answer. -/
theorem resolve_dispatch_exclusive_witness :
    testLib.ReverseAddr (testLib.ipString [192, 168, 1, 1])
      = ("1.1.168.192.in-addr.arpa.", none) ∧
    (resolve testLib testRDNS [192, 168, 1, 1]).2
      = [Call.localExchange (ptrQuery testLib "1.1.168.192.in-addr.arpa.")] ∧
    resolve testLib { testRDNS with dnsServer := errUpstream "unreachable" } [192, 168, 1, 1]
      = resolve testLib testRDNS [192, 168, 1, 1] ∧
    (resolve testLib testRDNS [192, 168, 1, 1]).1 = .ret (TrimSuffix "local.domain." ".") none ∧
    (resolve testLib (testRDNSWith testUpstream (errUpstream "down")) [192, 168, 1, 1]).1
      = .ret "" (some (.fmtErrorf "performing lookup for %q: %w" [[192, 168, 1, 1]]
          (.const "down"))) :=
  have h := resolve_dispatch_exclusive testLib testRDNS [192, 168, 1, 1]
    "1.1.168.192.in-addr.arpa." rfl
  have h2 := resolve_dispatch_exclusive testLib (testRDNSWith testUpstream (errUpstream "down"))
    [192, 168, 1, 1] "1.1.168.192.in-addr.arpa." rfl
  ⟨rfl, h.1, h.2.1 rfl (errUpstream "unreachable"),
    (h.2.2.2.2.2
      { ptrQuery testLib "1.1.168.192.in-addr.arpa." with Answer := [.PTR "local.domain."] }
      rfl).2.1 "local.domain." [] rfl,
    h2.2.2.2.1 none (.const "down") rfl⟩

/-- Trimming the suffix `"."` of `q ++ "."` gives `q`. -/
theorem TrimSuffix_dot_append (q : String) : TrimSuffix (q ++ ".") "." = q := by
  have hd : (q ++ ".").data = q.data ++ ['.'] := by
    simp [String.data_append]
  have hs : HasSuffix (q ++ ".") "." = true := by
    unfold HasSuffix
    rw [hd, List.isSuffixOf_iff_suffix]
    exact ⟨q.data, rfl⟩
  unfold TrimSuffix
  rw [if_pos hs, hd]
  simp

/-- Trimming the suffix `"."` of a text that does not end with it gives the text. -/
theorem TrimSuffix_dot_other (p : String) (h : ∀ q : String, p ≠ q ++ ".") :
    TrimSuffix p "." = p := by
  have hs : HasSuffix p "." = false := by
    cases hb : HasSuffix p "." with
    | false => rfl
    | true =>
      exfalso
      unfold HasSuffix at hb
      rw [List.isSuffixOf_iff_suffix] at hb
      obtain ⟨t, ht⟩ := hb
      apply h ⟨t⟩
      apply String.ext
      simp [String.data_append, ← ht]
  unfold TrimSuffix
  simp [hs]

/-- C5: when the selected exchange succeeds with a response whose first answer record is
a PTR record with target `p`, `resolve` succeeds with the host `p` without one trailing
`"."` when `p` ends with it (`p = q ++ "."` gives `q`) and with `p` itself otherwise. -/
theorem resolve_PTR_trimmed (lib : Lib) (r : RDNS) (ip : IP) (arpa : String) (resp : Msg)
    (p : String) (rest : List RR)
    (hrev : lib.ReverseAddr (lib.ipString ip) = (arpa, none))
    (hex : (selectExchange r ip (ptrQuery lib arpa)).1 = (some resp, none))
    (hans : resp.Answer = .PTR p :: rest) :
    ∃ host, (resolve lib r ip).1 = .ret host none ∧
      (∀ q : String, p = q ++ "." → host = q) ∧
      ((∀ q : String, p ≠ q ++ ".") → host = p) := by
  refine ⟨TrimSuffix p ".", ?_, ?_, ?_⟩
  · unfold resolve
    simp only [hrev, hex, hans]
  · intro q hq
    rw [hq]
    exact TrimSuffix_dot_append q
  · intro h
    exact TrimSuffix_dot_other p h

/-- Witness of C5: the PTR target `one.one.one.one.` for `1.1.1.1` yields
`one.one.one.one`, and the local answer `local.domain.` for `192.168.1.1` yields
`local.domain`. -/
theorem resolve_PTR_trimmed_witness :
    (resolve testLib testRDNS [1, 1, 1, 1]).1 = .ret "one.one.one.one" none ∧
    (resolve testLib testRDNS [192, 168, 1, 1]).1 = .ret "local.domain" none ∧
    ∃ host, (resolve testLib testRDNS [1, 1, 1, 1]).1 = .ret host none ∧
      (∀ q : String, "one.one.one.one." = q ++ "." → host = q) ∧
      ((∀ q : String, "one.one.one.one." ≠ q ++ ".") → host = "one.one.one.one.") :=
  ⟨rfl, rfl,
    resolve_PTR_trimmed testLib testRDNS [1, 1, 1, 1] "1.1.1.1.in-addr.arpa."
      { ptrQuery testLib "1.1.1.1.in-addr.arpa." with Answer := [.PTR "one.one.one.one."] }
      "one.one.one.one." [] rfl rfl rfl⟩

/-- C6: when the selected exchange succeeds with a response whose answer section is
empty, `resolve` fails: it returns the empty hostname and an error that wraps
`rDNSEmptyAnswerErr` ("the answer section is empty"); and the worker loop makes no
`AddHost` call for that address: it goes on with the rest of the queue, with the registry
it had. -/
theorem resolve_empty_answer (lib : Lib)
    (addHost : clientsContainer → String → String → clientSource →
      clientsContainer × Option Error)
    (r : RDNS) (ip : IP) (arpa : String) (resp : Msg) (queue : List IP)
    (hrev : lib.ReverseAddr (lib.ipString ip) = (arpa, none))
    (hex : (selectExchange r ip (ptrQuery lib arpa)).1 = (some resp, none))
    (hans : resp.Answer = []) :
    (∃ err, (resolve lib r ip).1 = .ret "" (some err) ∧
      err.wrapped = [rDNSEmptyAnswerErr] ∧
      rDNSEmptyAnswerErr.text = "the answer section is empty") ∧
    (workerLoop lib addHost r [ip]).added = [] ∧
    (workerLoop lib addHost r [ip]).clients = r.clients ∧
    (workerLoop lib addHost r (ip :: queue)).added = (workerLoop lib addHost r queue).added ∧
    (workerLoop lib addHost r (ip :: queue)).clients
      = (workerLoop lib addHost r queue).clients ∧
    (workerLoop lib addHost r (ip :: queue)).taken
      = ip :: (workerLoop lib addHost r queue).taken := by
  have hres : (resolve lib r ip).1
      = .ret "" (some (.fmtErrorf "lookup for %q: %w" [ip] rDNSEmptyAnswerErr)) := by
    unfold resolve
    simp only [hrev, hex, hans]
  refine ⟨⟨_, hres, ?_, rfl⟩, ?_, ?_, ?_, ?_, ?_⟩
  · rfl
  all_goals simp only [workerLoop, hres]

/-- Witness of C6: the upstream dispatcher answers `1.1.1.1` with an empty answer
section; the worker loop leaves the registry empty. -/
theorem resolve_empty_answer_witness :
    (∃ err, (resolve testLib (testRDNSWith emptyUpstream emptyUpstream) [1, 1, 1, 1]).1
        = .ret "" (some err) ∧
      err.wrapped = [rDNSEmptyAnswerErr] ∧
      rDNSEmptyAnswerErr.text = "the answer section is empty") ∧
    (workerLoop testLib clientsContainer.AddHost (testRDNSWith emptyUpstream emptyUpstream)
      [[1, 1, 1, 1]]).added = [] :=
  have h := resolve_empty_answer testLib clientsContainer.AddHost
    (testRDNSWith emptyUpstream emptyUpstream) [1, 1, 1, 1] "1.1.1.1.in-addr.arpa."
    { ptrQuery testLib "1.1.1.1.in-addr.arpa." with Answer := [] } [] rfl rfl rfl
  ⟨h.1, h.2.1⟩

/-- C7: when the selected exchange succeeds with a non-empty answer section whose first
record is not a PTR record, `resolve` fails with an error that wraps `rDNSNotPTRErr` ("the
response is not a ptr"), whatever records follow the first one. -/
theorem resolve_first_not_PTR (lib : Lib) (r : RDNS) (ip : IP) (arpa : String) (resp : Msg)
    (rrtype : Nat) (data : String) (rest : List RR)
    (hrev : lib.ReverseAddr (lib.ipString ip) = (arpa, none))
    (hex : (selectExchange r ip (ptrQuery lib arpa)).1 = (some resp, none))
    (hans : resp.Answer = .other rrtype data :: rest) :
    ∃ err, (resolve lib r ip).1 = .ret "" (some err) ∧
      err.wrapped = [rDNSNotPTRErr] ∧
      rDNSNotPTRErr.text = "the response is not a ptr" := by
  refine ⟨.fmtErrorf "type checking: %w" [] rDNSNotPTRErr, ?_, rfl, rfl⟩
  unfold resolve
  simp only [hrev, hex, hans]

/-- Witness of C7: the answer section holds a CNAME record and then a PTR record; the
PTR record is not looked at. -/
theorem resolve_first_not_PTR_witness :
    (cnameFirstUpstream (ptrQuery testLib "1.1.1.1.in-addr.arpa.")).1.map (fun m => m.Answer)
      = some [.other 5 "alias.example.", .PTR "host.example."] ∧
    ∃ err, (resolve testLib (testRDNSWith cnameFirstUpstream cnameFirstUpstream)
        [1, 1, 1, 1]).1 = .ret "" (some err) ∧
      err.wrapped = [rDNSNotPTRErr] ∧
      rDNSNotPTRErr.text = "the response is not a ptr" :=
  ⟨rfl, resolve_first_not_PTR testLib (testRDNSWith cnameFirstUpstream cnameFirstUpstream)
    [1, 1, 1, 1] "1.1.1.1.in-addr.arpa."
    { ptrQuery testLib "1.1.1.1.in-addr.arpa." with
      Answer := [.other 5 "alias.example.", .PTR "host.example."] }
    5 "alias.example." [.PTR "host.example."] rfl rfl rfl⟩

/-- C10: whenever the exchange selected for `ip` returns an error `e`, with whatever
response, `resolve` returns the empty hostname and the error
`fmt.Errorf("performing lookup for %q: %w", ip, e)`, which wraps `e` and carries the
address. -/
theorem resolve_exchange_error (lib : Lib) (r : RDNS) (ip : IP) (arpa : String)
    (resp : Option Msg) (e : Error)
    (hrev : lib.ReverseAddr (lib.ipString ip) = (arpa, none))
    (hex : (selectExchange r ip (ptrQuery lib arpa)).1 = (resp, some e)) :
    (resolve lib r ip).1
      = .ret "" (some (.fmtErrorf "performing lookup for %q: %w" [ip] e)) ∧
    (Error.fmtErrorf "performing lookup for %q: %w" [ip] e).wrapped = [e] := by
  refine ⟨?_, rfl⟩
  unfold resolve
  simp only [hrev, hex]

/-- Witness of C10: the upstream dispatcher fails for `1.1.1.1`. -/
theorem resolve_exchange_error_witness :
    (resolve testLib (testRDNSWith (errUpstream "timeout") testUpstream) [1, 1, 1, 1]).1
      = .ret "" (some (.fmtErrorf "performing lookup for %q: %w" [[1, 1, 1, 1]]
          (.const "timeout"))) ∧
    (Error.fmtErrorf "performing lookup for %q: %w" [[1, 1, 1, 1]] (.const "timeout")).wrapped
      = [.const "timeout"] :=
  resolve_exchange_error testLib (testRDNSWith (errUpstream "timeout") testUpstream)
    [1, 1, 1, 1] "1.1.1.1.in-addr.arpa." none (.const "timeout") rfl rfl

/-! ## Properties of `localResolvers.Exchange` -/

theorem exchangeLoop_first_usable (req : Msg) (resp : Msg) (u : Upstream)
    (hhit : u req = (some resp, none)) :
    ∀ (ups : List Upstream) (i k : Nat) (errs : List Error),
      ups[i]? = some u →
      (∀ j v, j < i → ups[j]? = some v → usable (v req) = false) →
      exchangeLoop req ups k errs = ((some resp, none), List.range' k (i + 1)) := by
  intro ups
  induction ups with
  | nil =>
    intro i k errs hu
    simp at hu
  | cons u0 rest ih =>
    intro i k errs hu hbefore
    cases i with
    | zero =>
      simp only [List.getElem?_cons_zero, Option.some.injEq] at hu
      subst hu
      simp [exchangeLoop, hhit]
    | succ i =>
      have h0 : usable (u0 req) = false := hbefore 0 u0 (Nat.succ_pos i) (by simp)
      have hu2 : rest[i]? = some u := by simpa using hu
      have hb2 : ∀ j v, j < i → rest[j]? = some v → usable (v req) = false := by
        intro j v hj hv
        exact hbefore (j + 1) v (Nat.succ_lt_succ hj) (by simpa using hv)
      rcases hx : u0 req with ⟨_ | m, _ | err⟩
      · simp only [exchangeLoop, hx]
        rw [ih i (k + 1) errs hu2 hb2, List.range'_succ k (i + 1)]
      · simp only [exchangeLoop, hx]
        rw [ih i (k + 1) (errs ++ [err]) hu2 hb2, List.range'_succ k (i + 1)]
      · rw [hx] at h0
        simp [usable] at h0
      · simp only [exchangeLoop, hx]
        rw [ih i (k + 1) (errs ++ [err]) hu2 hb2, List.range'_succ k (i + 1)]

theorem exchangeLoop_exhausted (req : Msg) :
    ∀ (ups : List Upstream) (k : Nat) (errs : List Error),
      (∀ v ∈ ups, usable (v req) = false) →
      exchangeLoop req ups k errs
        = ((none, some (.many "can't exchange" (errs ++ resolverErrors req ups))),
            List.range' k ups.length) := by
  intro ups
  induction ups with
  | nil =>
    intro k errs _
    simp [exchangeLoop, resolverErrors]
  | cons u0 rest ih =>
    intro k errs hall
    have h0 : usable (u0 req) = false := hall u0 (List.mem_cons_self _ _)
    have hrest : ∀ v ∈ rest, usable (v req) = false :=
      fun v hv => hall v (List.mem_cons_of_mem _ hv)
    rcases hx : u0 req with ⟨_ | m, _ | err⟩
    · simp only [exchangeLoop, hx]
      rw [ih (k + 1) errs hrest]
      simp [resolverErrors, hx, List.range'_succ]
    · simp only [exchangeLoop, hx]
      rw [ih (k + 1) (errs ++ [err]) hrest]
      simp [resolverErrors, hx, List.range'_succ]
    · rw [hx] at h0
      simp [usable] at h0
    · simp only [exchangeLoop, hx]
      rw [ih (k + 1) (errs ++ [err]) hrest]
      simp [resolverErrors, hx, List.range'_succ]

/-- C8: if the resolver at position `i` returns a non-nil response without an error and no
resolver before it does (each of them errored or returned a nil response), then
`localResolvers.Exchange` returns that response with a nil error, and the resolvers
queried are those at the positions `0, ..., i`, each once, in configured order: none after
position `i` is queried. -/
theorem localResolvers_Exchange_first_usable (lr : localResolvers) (req : Msg) (i : Nat)
    (u : Upstream) (resp : Msg)
    (hu : lr.ups[i]? = some u) (hhit : u req = (some resp, none))
    (hbefore : ∀ j v, j < i → lr.ups[j]? = some v → usable (v req) = false) :
    lr.Exchange req = ((some resp, none), List.range (i + 1)) := by
  unfold localResolvers.Exchange
  simp only [exchangeLoop_first_usable req resp u hhit lr.ups i 0 [] hu hbefore]
  rw [List.range_eq_range']
  rfl

/-- Witness of C8: the first resolver errors, the second returns a nil response, the third
answers, and the fourth is not queried. -/
theorem localResolvers_Exchange_first_usable_witness :
    (NewLocalResolvers [errUpstream "timeout", nilUpstream, testUpstream,
        errUpstream "refused"]).Exchange (ptrQuery testLib "1.1.1.1.in-addr.arpa.")
      = ((some { ptrQuery testLib "1.1.1.1.in-addr.arpa." with
            Answer := [.PTR "one.one.one.one."] }, none), [0, 1, 2]) :=
  localResolvers_Exchange_first_usable
    (NewLocalResolvers [errUpstream "timeout", nilUpstream, testUpstream,
      errUpstream "refused"])
    (ptrQuery testLib "1.1.1.1.in-addr.arpa.") 2 testUpstream
    { ptrQuery testLib "1.1.1.1.in-addr.arpa." with Answer := [.PTR "one.one.one.one."] }
    rfl rfl
    (fun j v hj hv => by
      have hj2 : j = 0 ∨ j = 1 := by omega
      rcases hj2 with h | h <;> subst h <;>
        simp [NewLocalResolvers] at hv <;> subst hv <;> rfl)

/-- The error returned by an exhausted exchange: when no resolver yields a usable
response, `localResolvers.Exchange` queries every resolver once, in order, and returns a
nil response and the value of `fmt.Errorf("localResolvers", many)`, where `many` is
`agherr.Many("can't exchange", errs...)` and `errs` holds exactly the errors of the
resolvers in configured order. -/
theorem localResolvers_Exchange_exhausted (lr : localResolvers) (req : Msg)
    (hall : ∀ v ∈ lr.ups, usable (v req) = false) :
    lr.Exchange req
      = ((none, some (.fmtErrorf "localResolvers" []
            (.many "can't exchange" (resolverErrors req lr.ups)))),
          List.range lr.ups.length) := by
  unfold localResolvers.Exchange
  simp only [exchangeLoop_exhausted req lr.ups 0 [] hall, List.nil_append, Annotate]
  rw [List.range_eq_range']

/-- C9 (the code at a failing input): two resolvers that both fail.  The aggregate
`agherr.Many("can't exchange", timeout, refused)` is built with the two errors in order,
but the deferred `agherr.Annotate("localResolvers", &err)`, whose message lacks the final
`: %w` that `NewLocalResolvers` passes, replaces it by an error that is not an aggregate
and wraps nothing. -/
theorem localResolvers_Exchange_all_fail_unwrapped :
    (NewLocalResolvers [errUpstream "timeout", errUpstream "refused"]).Exchange
        (ptrQuery testLib "1.1.168.192.in-addr.arpa.")
      = ((none, some (.fmtErrorf "localResolvers" []
            (.many "can't exchange" [.const "timeout", .const "refused"]))), [0, 1]) ∧
    (Error.fmtErrorf "localResolvers" []
        (.many "can't exchange" [.const "timeout", .const "refused"])).wrapped = [] ∧
    (Error.fmtErrorf "localResolvers" []
        (.many "can't exchange" [.const "timeout", .const "refused"])).isMany = false ∧
    (Error.fmtErrorf "localResolvers: %w" []
        (.many "can't exchange" [.const "timeout", .const "refused"])).wrapped
      = [.many "can't exchange" [.const "timeout", .const "refused"]] :=
  ⟨rfl, rfl, rfl, rfl⟩

/-! ## Properties of the worker loop -/

theorem resolve_clients (lib : Lib) (r : RDNS) (c : clientsContainer) (ip : IP) :
    resolve lib { r with clients := c } ip = resolve lib r ip := rfl

theorem addHostCall_clients (lib : Lib) (r : RDNS) (c : clientsContainer) (ip : IP) :
    addHostCall lib { r with clients := c } ip = addHostCall lib r ip := rfl

theorem workerLoop_cons_panic (lib : Lib)
    (addHost : clientsContainer → String → String → clientSource →
      clientsContainer × Option Error)
    (r : RDNS) (ip : IP) (rest : List IP) (h : (resolve lib r ip).1 = .panic) :
    workerLoop lib addHost r (ip :: rest)
      = { clients := r.clients, added := [], taken := [ip], fin := .panicked } := by
  simp only [workerLoop, h]

theorem workerLoop_cons_err (lib : Lib)
    (addHost : clientsContainer → String → String → clientSource →
      clientsContainer × Option Error)
    (r : RDNS) (ip : IP) (rest : List IP) (host : String) (e : Error)
    (h : (resolve lib r ip).1 = .ret host (some e)) :
    workerLoop lib addHost r (ip :: rest)
      = { workerLoop lib addHost r rest with
          taken := ip :: (workerLoop lib addHost r rest).taken } := by
  simp only [workerLoop, h]

theorem workerLoop_cons_ok (lib : Lib)
    (addHost : clientsContainer → String → String → clientSource →
      clientsContainer × Option Error)
    (r : RDNS) (ip : IP) (rest : List IP) (host : String)
    (h : (resolve lib r ip).1 = .ret host none) :
    workerLoop lib addHost r (ip :: rest)
      = { workerLoop lib addHost
            { r with clients := (addHost r.clients (lib.ipString ip) host .ClientSourceRDNS).1 }
            rest with
          added := (lib.ipString ip, host, .ClientSourceRDNS) ::
            (workerLoop lib addHost
              { r with
                clients := (addHost r.clients (lib.ipString ip) host .ClientSourceRDNS).1 }
              rest).added,
          taken := ip ::
            (workerLoop lib addHost
              { r with
                clients := (addHost r.clients (lib.ipString ip) host .ClientSourceRDNS).1 }
              rest).taken } := by
  simp only [workerLoop, h]

/-- When no `resolve` panics, the loop takes every address, makes the `AddHost` calls of
the successful ones in order, and ends at the closure of the channel. -/
theorem workerLoop_no_fault (lib : Lib)
    (addHost : clientsContainer → String → String → clientSource →
      clientsContainer × Option Error)
    (r : RDNS) :
    ∀ (queue : List IP) (r2 : RDNS),
      (∀ ip, resolve lib r2 ip = resolve lib r ip) →
      (∀ ip ∈ queue, (resolve lib r ip).1 ≠ .panic) →
      (workerLoop lib addHost r2 queue).added = queue.filterMap (addHostCall lib r) ∧
      (workerLoop lib addHost r2 queue).taken = queue ∧
      (workerLoop lib addHost r2 queue).fin = .closed := by
  intro queue
  induction queue with
  | nil =>
    intro r2 _ _
    exact ⟨rfl, rfl, rfl⟩
  | cons ip rest ih =>
    intro r2 hsame hall
    have hip : (resolve lib r ip).1 ≠ .panic := hall ip (List.mem_cons_self _ _)
    have hrest : ∀ a ∈ rest, (resolve lib r a).1 ≠ .panic :=
      fun a ha => hall a (List.mem_cons_of_mem _ ha)
    cases hres : (resolve lib r ip).1 with
    | panic => exact absurd hres hip
    | ret host err =>
      have hres2 : (resolve lib r2 ip).1 = .ret host err := by rw [hsame ip, hres]
      cases err with
      | some e =>
        have hcall : addHostCall lib r ip = none := by
          simp only [addHostCall, hres]
        obtain ⟨h1, h2, h3⟩ := ih r2 hsame hrest
        rw [workerLoop_cons_err lib addHost r2 ip rest host e hres2,
          List.filterMap_cons, hcall]
        exact ⟨h1, congrArg (List.cons ip) h2, h3⟩
      | none =>
        have hcall : addHostCall lib r ip
            = some (lib.ipString ip, host, .ClientSourceRDNS) := by
          simp only [addHostCall, hres]
        obtain ⟨h1, h2, h3⟩ :=
          ih { r2 with
               clients := (addHost r2.clients (lib.ipString ip) host .ClientSourceRDNS).1 }
            (fun a => (resolve_clients lib r2 _ a).trans (hsame a)) hrest
        rw [workerLoop_cons_ok lib addHost r2 ip rest host hres2,
          List.filterMap_cons, hcall]
        exact ⟨congrArg (List.cons _) h1, congrArg (List.cons ip) h2, h3⟩

/-- When `resolve` panics on an address and on none before it, the loop ends there: the
addresses before it are handled as usual and nothing queued behind it is taken. -/
theorem workerLoop_fault (lib : Lib)
    (addHost : clientsContainer → String → String → clientSource →
      clientsContainer × Option Error)
    (r : RDNS) (ip : IP) (post : List IP) (hip : (resolve lib r ip).1 = .panic) :
    ∀ (pre : List IP) (r2 : RDNS),
      (∀ a, resolve lib r2 a = resolve lib r a) →
      (∀ a ∈ pre, (resolve lib r a).1 ≠ .panic) →
      (workerLoop lib addHost r2 (pre ++ ip :: post)).added
          = pre.filterMap (addHostCall lib r) ∧
      (workerLoop lib addHost r2 (pre ++ ip :: post)).taken = pre ++ [ip] ∧
      (workerLoop lib addHost r2 (pre ++ ip :: post)).fin = .panicked := by
  intro pre
  induction pre with
  | nil =>
    intro r2 hsame _
    have hip2 : (resolve lib r2 ip).1 = .panic := by rw [hsame ip, hip]
    rw [List.nil_append, workerLoop_cons_panic lib addHost r2 ip post hip2]
    exact ⟨rfl, rfl, rfl⟩
  | cons a rest ih =>
    intro r2 hsame hall
    have ha : (resolve lib r a).1 ≠ .panic := hall a (List.mem_cons_self _ _)
    have hrest : ∀ b ∈ rest, (resolve lib r b).1 ≠ .panic :=
      fun b hb => hall b (List.mem_cons_of_mem _ hb)
    cases hres : (resolve lib r a).1 with
    | panic => exact absurd hres ha
    | ret host err =>
      have hres2 : (resolve lib r2 a).1 = .ret host err := by rw [hsame a, hres]
      cases err with
      | some e =>
        have hcall : addHostCall lib r a = none := by
          simp only [addHostCall, hres]
        obtain ⟨h1, h2, h3⟩ := ih r2 hsame hrest
        rw [List.cons_append,
          workerLoop_cons_err lib addHost r2 a (rest ++ ip :: post) host e hres2,
          List.filterMap_cons, hcall]
        exact ⟨h1, congrArg (List.cons a) h2, h3⟩
      | none =>
        have hcall : addHostCall lib r a
            = some (lib.ipString a, host, .ClientSourceRDNS) := by
          simp only [addHostCall, hres]
        obtain ⟨h1, h2, h3⟩ :=
          ih { r2 with
               clients := (addHost r2.clients (lib.ipString a) host .ClientSourceRDNS).1 }
            (fun b => (resolve_clients lib r2 _ b).trans (hsame b)) hrest
        rw [List.cons_append,
          workerLoop_cons_ok lib addHost r2 a (rest ++ ip :: post) host hres2,
          List.filterMap_cons, hcall]
        exact ⟨congrArg (List.cons _) h1, congrArg (List.cons a) h2, h3⟩

/-- When no `resolve` panics, the registry the loop leaves is the one obtained by applying
`AddHost` to the registry, in order, for each address whose `resolve` succeeded. -/
theorem workerLoop_no_fault_clients (lib : Lib)
    (addHost : clientsContainer → String → String → clientSource →
      clientsContainer × Option Error)
    (r : RDNS) :
    ∀ (queue : List IP) (r2 : RDNS),
      (∀ ip, resolve lib r2 ip = resolve lib r ip) →
      (∀ ip ∈ queue, (resolve lib r ip).1 ≠ .panic) →
      (workerLoop lib addHost r2 queue).clients
        = (queue.filterMap (addHostCall lib r)).foldl
            (fun c call => (addHost c call.1 call.2.1 call.2.2).1) r2.clients := by
  intro queue
  induction queue with
  | nil =>
    intro r2 _ _
    rfl
  | cons ip rest ih =>
    intro r2 hsame hall
    have hip : (resolve lib r ip).1 ≠ .panic := hall ip (List.mem_cons_self _ _)
    have hrest : ∀ a ∈ rest, (resolve lib r a).1 ≠ .panic :=
      fun a ha => hall a (List.mem_cons_of_mem _ ha)
    cases hres : (resolve lib r ip).1 with
    | panic => exact absurd hres hip
    | ret host err =>
      have hres2 : (resolve lib r2 ip).1 = .ret host err := by rw [hsame ip, hres]
      cases err with
      | some e =>
        have hcall : addHostCall lib r ip = none := by
          simp only [addHostCall, hres]
        rw [workerLoop_cons_err lib addHost r2 ip rest host e hres2,
          List.filterMap_cons, hcall]
        exact ih r2 hsame hrest
      | none =>
        have hcall : addHostCall lib r ip
            = some (lib.ipString ip, host, .ClientSourceRDNS) := by
          simp only [addHostCall, hres]
        rw [workerLoop_cons_ok lib addHost r2 ip rest host hres2,
          List.filterMap_cons, hcall, List.foldl_cons]
        exact ih { r2 with
               clients := (addHost r2.clients (lib.ipString ip) host .ClientSourceRDNS).1 }
            (fun a => (resolve_clients lib r2 _ a).trans (hsame a)) hrest

/-- C11: over every finite sequence of queued addresses on which `resolve` returns
normally, and for every behaviour of the registry's `AddHost` (failing or not), the worker
loop takes every address, and its `AddHost` calls are exactly those of the addresses whose
`resolve` succeeded, in queue order, each with the arguments
`(ip.String(), host, ClientSourceRDNS)`; the registry it leaves is the result of applying
`AddHost` with these arguments, in that order, to the registry it started with; the loop
ends only at the closure of the channel. -/
theorem workerLoop_adds_resolved_in_order (lib : Lib)
    (addHost : clientsContainer → String → String → clientSource →
      clientsContainer × Option Error)
    (r : RDNS) (queue : List IP)
    (hret : ∀ ip ∈ queue, (resolve lib r ip).1 ≠ .panic) :
    (workerLoop lib addHost r queue).added = queue.filterMap (addHostCall lib r) ∧
    (workerLoop lib addHost r queue).taken = queue ∧
    (workerLoop lib addHost r queue).fin = .closed ∧
    (∀ ip host, (resolve lib r ip).1 = .ret host none →
      addHostCall lib r ip = some (lib.ipString ip, host, .ClientSourceRDNS)) ∧
    (∀ ip host e, (resolve lib r ip).1 = .ret host (some e) → addHostCall lib r ip = none) ∧
    (workerLoop lib addHost r queue).clients
      = (queue.filterMap (addHostCall lib r)).foldl
          (fun c call => (addHost c call.1 call.2.1 call.2.2).1) r.clients := by
  obtain ⟨h1, h2, h3⟩ := workerLoop_no_fault lib addHost r queue r (fun _ => rfl) hret
  refine ⟨h1, h2, h3, ?_, ?_, ?_⟩
  · intro ip host h
    simp only [addHostCall, h]
  · intro ip host e h
    simp only [addHostCall, h]
  · exact workerLoop_no_fault_clients lib addHost r queue r (fun _ => rfl) hret

theorem testQueue_returns (ip : IP)
    (hip : ip ∈ [[1, 1, 1, 1], [8, 8, 8, 8], [192, 168, 1, 1]]) :
    (resolve testLib testRDNS ip).1 ≠ .panic := by
  have h1 : (resolve testLib testRDNS [1, 1, 1, 1]).1 = .ret "one.one.one.one" none := rfl
  have h2 : ∃ e, (resolve testLib testRDNS [8, 8, 8, 8]).1 = .ret "" (some e) := ⟨_, rfl⟩
  have h3 : (resolve testLib testRDNS [192, 168, 1, 1]).1 = .ret "local.domain" none := rfl
  obtain ⟨e, h2⟩ := h2
  simp only [List.mem_cons, List.mem_singleton, List.not_mem_nil, or_false] at hip
  rcases hip with h | h | h <;> subst h <;> intro hp
  · rw [h1] at hp; cases hp
  · rw [h2] at hp; cases hp
  · rw [h3] at hp; cases hp

/-- Witness of C11: `1.1.1.1` resolves, `8.8.8.8` cannot be reversed by the library of the
test, `192.168.1.1` resolves.  With a registry whose `AddHost` always fails the loop still
takes the three addresses and calls `AddHost` for the first and the third; with the
registry of the model, the two records are in the registry afterwards. -/
theorem workerLoop_adds_resolved_in_order_witness :
    (workerLoop testLib failingAddHost testRDNS
        [[1, 1, 1, 1], [8, 8, 8, 8], [192, 168, 1, 1]]).added
      = [("1.1.1.1", "one.one.one.one", .ClientSourceRDNS),
         ("192.168.1.1", "local.domain", .ClientSourceRDNS)] ∧
    (workerLoop testLib failingAddHost testRDNS
        [[1, 1, 1, 1], [8, 8, 8, 8], [192, 168, 1, 1]]).taken
      = [[1, 1, 1, 1], [8, 8, 8, 8], [192, 168, 1, 1]] ∧
    (workerLoop testLib failingAddHost testRDNS
        [[1, 1, 1, 1], [8, 8, 8, 8], [192, 168, 1, 1]]).fin = .closed ∧
    (workerLoop testLib clientsContainer.AddHost testRDNS
        [[1, 1, 1, 1], [8, 8, 8, 8], [192, 168, 1, 1]]).clients.records
      = [("192.168.1.1", "local.domain", .ClientSourceRDNS),
         ("1.1.1.1", "one.one.one.one", .ClientSourceRDNS)] :=
  have h := workerLoop_adds_resolved_in_order testLib failingAddHost testRDNS
    [[1, 1, 1, 1], [8, 8, 8, 8], [192, 168, 1, 1]] testQueue_returns
  have hreg := workerLoop_adds_resolved_in_order testLib clientsContainer.AddHost testRDNS
    [[1, 1, 1, 1], [8, 8, 8, 8], [192, 168, 1, 1]] testQueue_returns
  ⟨h.1.trans rfl, h.2.1, h.2.2.1, (congrArg clientsContainer.records hreg.2.2.2.2.2).trans rfl⟩

/-- C13 (as stated, refuted): the upstream dispatcher returns a nil response with a nil
error for `1.1.1.1`, and `resolve` panics on it; `192.168.1.1`, queued behind, would
resolve to `local.domain`, but the loop has ended: it is never taken from the channel and
no `AddHost` call is made. -/
theorem workerLoop_fault_counterexample :
    (resolve testLib (testRDNSWith nilUpstream testUpstream) [192, 168, 1, 1]).1
      = .ret "local.domain" none ∧
    (workerLoop testLib clientsContainer.AddHost (testRDNSWith nilUpstream testUpstream)
        [[1, 1, 1, 1], [192, 168, 1, 1]]).fin = .panicked ∧
    (workerLoop testLib clientsContainer.AddHost (testRDNSWith nilUpstream testUpstream)
        [[1, 1, 1, 1], [192, 168, 1, 1]]).taken = [[1, 1, 1, 1]] ∧
    (workerLoop testLib clientsContainer.AddHost (testRDNSWith nilUpstream testUpstream)
        [[1, 1, 1, 1], [192, 168, 1, 1]]).added = [] :=
  ⟨rfl, rfl, rfl, rfl⟩

/-- C13 (amended): the worker loop ends when the channel is closed and drained, or at the
first internal fault.  When no `resolve` panics, every queued address is taken and the
loop ends at the closure.  When `resolve` panics on an address (for instance on a nil
response with a nil error) and on none before it, the addresses before it are handled as
usual, the loop ends at the faulting address, and nothing queued behind it is taken. -/
theorem workerLoop_ends_at_closure_or_fault (lib : Lib)
    (addHost : clientsContainer → String → String → clientSource →
      clientsContainer × Option Error)
    (r : RDNS) :
    (∀ queue : List IP, (∀ ip ∈ queue, (resolve lib r ip).1 ≠ .panic) →
      (workerLoop lib addHost r queue).fin = .closed ∧
      (workerLoop lib addHost r queue).taken = queue) ∧
    (∀ (pre : List IP) (ip : IP) (post : List IP),
      (∀ a ∈ pre, (resolve lib r a).1 ≠ .panic) → (resolve lib r ip).1 = .panic →
      (workerLoop lib addHost r (pre ++ ip :: post)).fin = .panicked ∧
      (workerLoop lib addHost r (pre ++ ip :: post)).taken = pre ++ [ip] ∧
      (workerLoop lib addHost r (pre ++ ip :: post)).added
        = pre.filterMap (addHostCall lib r)) := by
  constructor
  · intro queue hq
    obtain ⟨_, h2, h3⟩ := workerLoop_no_fault lib addHost r queue r (fun _ => rfl) hq
    exact ⟨h3, h2⟩
  · intro pre ip post hpre hip
    obtain ⟨h1, h2, h3⟩ := workerLoop_fault lib addHost r ip post hip pre r (fun _ => rfl) hpre
    exact ⟨h3, h2, h1⟩

/-- Witness of C13: `192.168.1.1` resolves through the local resolver, then `1.1.1.1`
faults on the nil response of the upstream dispatcher, and the second `192.168.1.1` is
left in the channel. -/
theorem workerLoop_ends_at_closure_or_fault_witness :
    (workerLoop testLib clientsContainer.AddHost (testRDNSWith nilUpstream testUpstream)
        ([[192, 168, 1, 1]] ++ [1, 1, 1, 1] :: [[192, 168, 1, 1]])).fin = .panicked ∧
    (workerLoop testLib clientsContainer.AddHost (testRDNSWith nilUpstream testUpstream)
        ([[192, 168, 1, 1]] ++ [1, 1, 1, 1] :: [[192, 168, 1, 1]])).taken
      = [[192, 168, 1, 1]] ++ [[1, 1, 1, 1]] ∧
    (workerLoop testLib clientsContainer.AddHost (testRDNSWith nilUpstream testUpstream)
        ([[192, 168, 1, 1]] ++ [1, 1, 1, 1] :: [[192, 168, 1, 1]])).added
      = [("192.168.1.1", "local.domain", .ClientSourceRDNS)] :=
  have h := (workerLoop_ends_at_closure_or_fault testLib clientsContainer.AddHost
      (testRDNSWith nilUpstream testUpstream)).2
    [[192, 168, 1, 1]] [1, 1, 1, 1] [[192, 168, 1, 1]]
    (fun a ha => by
      have h3 : (resolve testLib (testRDNSWith nilUpstream testUpstream) [192, 168, 1, 1]).1
          = .ret "local.domain" none := rfl
      simp only [List.mem_singleton] at ha
      subst ha
      intro hp
      rw [h3] at hp
      cases hp)
    rfl
  ⟨h.1, h.2.1, h.2.2.trans rfl⟩

/-! ## Further properties of `resolve` and of `localResolvers.Exchange` -/

/-- C16: when `dns.ReverseAddr` fails on `ip.String()` with an error `e`, `resolve` returns
the empty hostname and the error `fmt.Errorf("reversing %q: %w", ip, e)`, which wraps `e`,
and it performs no exchange, neither on the local resolver set nor on the upstream
dispatcher. -/
theorem resolve_reversal_error (lib : Lib) (r : RDNS) (ip : IP) (arpa : String) (e : Error)
    (hrev : lib.ReverseAddr (lib.ipString ip) = (arpa, some e)) :
    resolve lib r ip = (.ret "" (some (.fmtErrorf "reversing %q: %w" [ip] e)), []) ∧
    (Error.fmtErrorf "reversing %q: %w" [ip] e).wrapped = [e] := by
  refine ⟨?_, rfl⟩
  unfold resolve
  simp only [hrev]

/-- Witness of C16: the three bytes `1, 2, 3` are no address; their textual form is
refused by the reversal and no exchange is performed. -/
theorem resolve_reversal_error_witness :
    testLib.ReverseAddr (testLib.ipString [1, 2, 3])
      = ("", some (.const "unrecognized address: ?")) ∧
    resolve testLib testRDNS [1, 2, 3]
      = (.ret "" (some (.fmtErrorf "reversing %q: %w" [[1, 2, 3]]
          (.const "unrecognized address: ?"))), []) :=
  ⟨rfl, (resolve_reversal_error testLib testRDNS [1, 2, 3] ""
    (.const "unrecognized address: ?") rfl).1⟩

theorem exchangeLoop_shape (req : Msg) :
    ∀ (ups : List Upstream) (k : Nat) (errs : List Error),
      (∃ resp, (exchangeLoop req ups k errs).1 = (some resp, none)) ∨
      (∃ e, (exchangeLoop req ups k errs).1 = (none, some e)) := by
  intro ups
  induction ups with
  | nil =>
    intro k errs
    exact Or.inr ⟨_, rfl⟩
  | cons u rest ih =>
    intro k errs
    rcases hx : u req with ⟨_ | m, _ | err⟩
    · simp only [exchangeLoop, hx]
      exact ih (k + 1) errs
    · simp only [exchangeLoop, hx]
      exact ih (k + 1) (errs ++ [err])
    · simp only [exchangeLoop, hx]
      exact Or.inl ⟨m, rfl⟩
    · simp only [exchangeLoop, hx]
      exact ih (k + 1) (errs ++ [err])

theorem localResolvers_Exchange_shape (lr : localResolvers) (req : Msg) :
    (∃ resp, (lr.Exchange req).1 = (some resp, none)) ∨
    (∃ e, (lr.Exchange req).1 = (none, some e)) := by
  unfold localResolvers.Exchange
  rcases exchangeLoop_shape req lr.ups 0 [] with ⟨resp, h⟩ | ⟨e, h⟩
  · left
    exact ⟨resp, by simp only [h, Annotate]⟩
  · right
    exact ⟨.fmtErrorf "localResolvers" [] e, by simp only [h, Annotate]⟩

/-- C17: for every resolver list and every query, `localResolvers.Exchange` returns a nil
error if and only if it returns a non-nil response, so it never returns a nil response
with a nil error; hence, when the local resolver set of the subsystem is this
implementation, `resolve` of a locally served address never panics on the response. -/
theorem localResolvers_Exchange_nil_error_iff (lr : localResolvers) (req : Msg) :
    ((lr.Exchange req).1.2 = none ↔ (lr.Exchange req).1.1 ≠ none) ∧
    (lr.Exchange req).1 ≠ (none, none) ∧
    (∀ (lib : Lib) (r : RDNS) (ip : IP), r.ipDetector ip = true →
      (∀ m, r.localResolvers m = (lr.Exchange m).1) →
      (resolve lib r ip).1 ≠ .panic) := by
  refine ⟨?_, ?_, ?_⟩
  · rcases localResolvers_Exchange_shape lr req with ⟨resp, h⟩ | ⟨e, h⟩ <;> simp [h]
  · rcases localResolvers_Exchange_shape lr req with ⟨resp, h⟩ | ⟨e, h⟩ <;> simp [h]
  · intro lib r ip hd hlr
    unfold resolve
    rcases hrev : lib.ReverseAddr (lib.ipString ip) with ⟨arpa, _ | e⟩
    · simp only [selectExchange, hd, if_true, hlr]
      rcases localResolvers_Exchange_shape lr (ptrQuery lib arpa) with ⟨resp, h⟩ | ⟨e, h⟩
      · simp only [h]
        rcases ha : resp.Answer with _ | ⟨_ | _, _⟩ <;> simp
      · simp only [h]
        simp
    · simp

/-- Witness of C17: the only local resolver returns a nil response with a nil error; the
exchange then fails with an error, and `resolve` of `192.168.1.1` returns instead of
panicking. -/
theorem localResolvers_Exchange_nil_error_iff_witness :
    ((NewLocalResolvers [nilUpstream]).Exchange
        (ptrQuery testLib "1.1.168.192.in-addr.arpa.")).1
      = (none, some (.fmtErrorf "localResolvers" [] (.many "can't exchange" []))) ∧
    (resolve testLib (testRDNSLocal (NewLocalResolvers [nilUpstream])) [192, 168, 1, 1]).1
      ≠ .panic :=
  ⟨rfl, (localResolvers_Exchange_nil_error_iff (NewLocalResolvers [nilUpstream])
      (ptrQuery testLib "1.1.168.192.in-addr.arpa.")).2.2 testLib
      (testRDNSLocal (NewLocalResolvers [nilUpstream])) [192, 168, 1, 1] rfl (fun _ => rfl)⟩

/-! ## Further properties of `Begin` -/

theorem lookupItem_take_none (k : List Nat) :
    ∀ (l : List (List Nat × List Nat)) (n : Nat),
      lookupItem k l = none → lookupItem k (l.take n) = none := by
  intro l
  induction l with
  | nil =>
    intro n _
    simp [lookupItem]
  | cons e rest ih =>
    intro n h
    obtain ⟨a, b⟩ := e
    cases n with
    | zero => simp [lookupItem]
    | succ n =>
      by_cases ha : a = k
      · simp [lookupItem, ha] at h
      · simp only [lookupItem, ha, if_false] at h
        simp only [List.take_succ_cons, lookupItem, ha, if_false]
        exact ih n h

theorem Cache.Set_lookup_none (c : Cache) (n : Nat) (key val k : List Nat) (hk : k ≠ key)
    (h : c.lookup k = none) : (c.Set n key val).lookup k = none := by
  unfold Cache.Set Cache.lookup
  apply lookupItem_take_none
  have hkey : ¬ key = k := fun hh => hk hh.symm
  simp only [lookupItem, hkey, if_false]
  rw [lookupItem_dropKey_ne key k c.items hk]
  exact h

theorem beginMiss_clients (lib : Lib) (now : Nat) (ip : IP) (r : RDNS) :
    (beginMiss lib now ip r).clients = r.clients := by
  unfold beginMiss
  simp only []
  split
  · rfl
  · split <;> rfl

theorem beginMiss_lookup_none (lib : Lib) (now : Nat) (ip k : IP) (r : RDNS) (hk : k ≠ ip)
    (h : r.ipCache.lookup k = none) : (beginMiss lib now ip r).ipCache.lookup k = none := by
  have hs := Cache.Set_lookup_none r.ipCache defaultRDNSCacheSize ip
    (PutUint64 ((now + defaultRDNSCacheTTL) % 2 ^ 64)) k hk h
  unfold beginMiss
  simp only []
  split
  · exact hs
  · split
    · exact hs
    · exact hs

theorem Begin_uncached (lib : Lib) (now : Nat) (ip : IP) (r : RDNS)
    (h : r.ipCache.lookup ip = none) :
    Begin lib now ip r
      = (beginMiss lib now ip { r with ipCache := (r.ipCache.Get ip).2 }, .returned) := by
  unfold Begin
  simp [Cache.Get_fst, h]

/-- The `Begin` of an address whose entry is absent or expired takes the second half. -/
theorem Begin_expired (lib : Lib) (now : Nat) (ip : IP) (r : RDNS)
    (hexp : r.ipCache.lookup ip = none ∨
      ∃ v e, r.ipCache.lookup ip = some v ∧ Uint64 v = some e ∧ e ≤ now) :
    Begin lib now ip r
      = (beginMiss lib now ip { r with ipCache := (r.ipCache.Get ip).2 }, .returned) := by
  rcases hexp with h | ⟨v, e, hv, he, hle⟩
  · exact Begin_uncached lib now ip r h
  · rcases Begin_cases lib now ip r with ⟨v2, hv2, hn, _, _⟩ | ⟨v2, e2, hv2, he2, hlt, _⟩ | hB
    · rw [hv] at hv2
      cases hv2
      rw [he] at hn
      cases hn
    · rw [hv] at hv2
      cases hv2
      rw [he] at he2
      cases he2
      omega
    · exact hB

/-- C12: when the cache entry of `ip` is absent or its expiry is at most `now` (an expiry
equal to `now` counts as expired), `Begin(ip)` returns and leaves, as the entry of `ip`,
the 8 bytes of the `uint64` sum `now + 3600`, which decode to `now + 3600` whenever the sum
fits in 64 bits; this holds whether or not the registry holds `ip` and whether or not the
queue is full.  When the registry does not hold `ip` under rDNS and the queue has room,
`ip` is appended at the tail of the queue, the earlier entries unchanged. -/
theorem Begin_refreshes_expired (lib : Lib) (now : Nat) (ip : IP) (r : RDNS)
    (hexp : r.ipCache.lookup ip = none ∨
      ∃ v e, r.ipCache.lookup ip = some v ∧ Uint64 v = some e ∧ e ≤ now) :
    (Begin lib now ip r).2 = .returned ∧
    (Begin lib now ip r).1.ipCache.lookup ip
      = some (PutUint64 ((now + defaultRDNSCacheTTL) % 2 ^ 64)) ∧
    (now + defaultRDNSCacheTTL < 2 ^ 64 →
      ((Begin lib now ip r).1.ipCache.lookup ip).bind Uint64 = some (now + 3600)) ∧
    (r.clients.Exists (lib.ipString ip) .ClientSourceRDNS = false →
      r.ipChan.length < defaultRDNSipChanSize →
      (Begin lib now ip r).1.ipChan = r.ipChan ++ [ip]) := by
  have hB := Begin_expired lib now ip r hexp
  have hl : (Begin lib now ip r).1.ipCache.lookup ip
      = some (PutUint64 ((now + defaultRDNSCacheTTL) % 2 ^ 64)) := by
    rw [hB]
    exact beginMiss_lookup lib now ip _
  refine ⟨by rw [hB], hl, ?_, ?_⟩
  · intro h64
    rw [hl, Nat.mod_eq_of_lt h64]
    exact Uint64_PutUint64 _ h64
  · intro hreg hroom
    rw [hB, beginMiss_ipChan]
    show (if r.clients.Exists (lib.ipString ip) .ClientSourceRDNS = true then r.ipChan
      else if r.ipChan.length < defaultRDNSipChanSize then r.ipChan ++ [ip] else r.ipChan)
      = r.ipChan ++ [ip]
    rw [hreg, if_neg (by simp), if_pos hroom]

/-- Witness of C12: in the state `expiringRDNS` the entry of `1.1.1.1` expires at 10000;
`Begin` at the time 10000 rewrites it to 13600 and appends the address. -/
theorem Begin_refreshes_expired_witness :
    (expiringRDNS.ipCache.lookup [1, 1, 1, 1]).bind Uint64 = some 10000 ∧
    (Begin testLib 10000 [1, 1, 1, 1] expiringRDNS).2 = .returned ∧
    ((Begin testLib 10000 [1, 1, 1, 1] expiringRDNS).1.ipCache.lookup [1, 1, 1, 1]).bind Uint64
      = some (10000 + 3600) ∧
    (Begin testLib 10000 [1, 1, 1, 1] expiringRDNS).1.ipChan
      = expiringRDNS.ipChan ++ [[1, 1, 1, 1]] :=
  have h := Begin_refreshes_expired testLib 10000 [1, 1, 1, 1] expiringRDNS
    (Or.inr ⟨PutUint64 10000, 10000, rfl, rfl, Nat.le_refl _⟩)
  ⟨rfl, h.1, h.2.2.1 (by decide), h.2.2.2 rfl (by decide)⟩

/-- C15 (as stated, refuted): `1.1.1.1` is given first in its 4-byte form and then, 100
seconds later, in its 16-byte form; both have the textual form `1.1.1.1`, no entry
expires and nothing is resolved in between, and the address is appended twice: the cache
is keyed by the bytes of the slice. -/
theorem Begin_byte_forms_counterexample :
    testLib.ipString [1, 1, 1, 1] = testLib.ipString (IPv4 1 1 1 1) ∧
    (Begin testLib 100 [1, 1, 1, 1] testRDNS).1.ipChan = [[1, 1, 1, 1]] ∧
    (Begin testLib 200 (IPv4 1 1 1 1) (Begin testLib 100 [1, 1, 1, 1] testRDNS).1).1.ipChan
      = [[1, 1, 1, 1], IPv4 1 1 1 1] := by
  refine ⟨?_, ?_, ?_⟩ <;> rfl

/-- C15 (amended): suppression by the cache is per byte representation.  Take an IPv4
address `a.b.c.d` that is cached in neither form and not held by the registry, with room
for two addresses in the queue, and let `Begin` run on its 4-byte form at `t1`.  A second
`Begin` on the same 4-byte form at `t2 < t1 + 3600` appends nothing more, so that form is
enqueued once; a second `Begin` on the 16-byte form, at any time, appends the address
again, although both forms have the same textual form. -/
theorem Begin_suppression_per_byte_form (lib : Lib) (r : RDNS) (a b c d t1 t2 : Nat)
    (hstr : lib.ipString [a, b, c, d] = lib.ipString (IPv4 a b c d))
    (h4 : r.ipCache.lookup [a, b, c, d] = none)
    (h16 : r.ipCache.lookup (IPv4 a b c d) = none)
    (hreg : r.clients.Exists (lib.ipString [a, b, c, d]) .ClientSourceRDNS = false)
    (hroom : r.ipChan.length + 1 < defaultRDNSipChanSize)
    (hwin : t2 < t1 + defaultRDNSCacheTTL) (h64 : t1 + defaultRDNSCacheTTL < 2 ^ 64) :
    (Begin lib t1 [a, b, c, d] r).1.ipChan = r.ipChan ++ [[a, b, c, d]] ∧
    (Begin lib t2 [a, b, c, d] (Begin lib t1 [a, b, c, d] r).1).1.ipChan
      = r.ipChan ++ [[a, b, c, d]] ∧
    (Begin lib t2 (IPv4 a b c d) (Begin lib t1 [a, b, c, d] r).1).1.ipChan
      = r.ipChan ++ [[a, b, c, d], IPv4 a b c d] := by
  have hne : IPv4 a b c d ≠ [a, b, c, d] := by
    intro h
    have hl := congrArg List.length h
    simp [IPv4] at hl
  have hB := Begin_uncached lib t1 [a, b, c, d] r h4
  -- the state after the first call
  have hq1 : (Begin lib t1 [a, b, c, d] r).1.ipChan = r.ipChan ++ [[a, b, c, d]] := by
    rw [hB, beginMiss_ipChan]
    show (if r.clients.Exists (lib.ipString [a, b, c, d]) .ClientSourceRDNS = true
      then r.ipChan
      else if r.ipChan.length < defaultRDNSipChanSize then r.ipChan ++ [[a, b, c, d]]
      else r.ipChan) = r.ipChan ++ [[a, b, c, d]]
    rw [hreg, if_neg (by simp), if_pos (by omega)]
  have hc1 : (Begin lib t1 [a, b, c, d] r).1.clients = r.clients := by
    rw [hB]
    exact beginMiss_clients lib t1 [a, b, c, d] _
  have hl4 : (Begin lib t1 [a, b, c, d] r).1.ipCache.lookup [a, b, c, d]
      = some (PutUint64 (t1 + defaultRDNSCacheTTL)) := by
    rw [hB]
    show (beginMiss lib t1 [a, b, c, d] _).ipCache.lookup [a, b, c, d] = _
    rw [beginMiss_lookup, Nat.mod_eq_of_lt h64]
  have hl16 : (Begin lib t1 [a, b, c, d] r).1.ipCache.lookup (IPv4 a b c d) = none := by
    rw [hB]
    apply beginMiss_lookup_none lib t1 [a, b, c, d] (IPv4 a b c d) _ hne
    show (r.ipCache.Get [a, b, c, d]).2.lookup (IPv4 a b c d) = none
    rw [Cache.Get_lookup, h16]
  refine ⟨hq1, ?_, ?_⟩
  · rw [Begin_live lib t2 [a, b, c, d] _ _ _ hl4 (Uint64_PutUint64 _ h64) hwin]
    exact hq1
  · rw [Begin_uncached lib t2 (IPv4 a b c d) _ hl16, beginMiss_ipChan]
    show (if (Begin lib t1 [a, b, c, d] r).1.clients.Exists (lib.ipString (IPv4 a b c d))
        .ClientSourceRDNS = true
      then (Begin lib t1 [a, b, c, d] r).1.ipChan
      else if (Begin lib t1 [a, b, c, d] r).1.ipChan.length < defaultRDNSipChanSize
      then (Begin lib t1 [a, b, c, d] r).1.ipChan ++ [IPv4 a b c d]
      else (Begin lib t1 [a, b, c, d] r).1.ipChan) = r.ipChan ++ [[a, b, c, d], IPv4 a b c d]
    have hlen : (Begin lib t1 [a, b, c, d] r).1.ipChan.length < defaultRDNSipChanSize := by
      rw [hq1, List.length_append]
      simpa using hroom
    rw [hc1, ← hstr, hreg, if_neg (by simp), if_pos hlen, hq1]
    simp

/-- Witness of C15: the address `1.1.1.1` in the state of the test. -/
theorem Begin_suppression_per_byte_form_witness :
    (Begin testLib 100 [1, 1, 1, 1] testRDNS).1.ipChan = testRDNS.ipChan ++ [[1, 1, 1, 1]] ∧
    (Begin testLib 200 [1, 1, 1, 1] (Begin testLib 100 [1, 1, 1, 1] testRDNS).1).1.ipChan
      = testRDNS.ipChan ++ [[1, 1, 1, 1]] ∧
    (Begin testLib 200 (IPv4 1 1 1 1) (Begin testLib 100 [1, 1, 1, 1] testRDNS).1).1.ipChan
      = testRDNS.ipChan ++ [[1, 1, 1, 1], IPv4 1 1 1 1] :=
  Begin_suppression_per_byte_form testLib testRDNS 1 1 1 1 100 200 rfl rfl rfl rfl
    (by decide) (by decide) (by decide)

/-! ## The trimmed hostname -/

theorem HasSuffix_TrimSuffix_dot (p : String) :
    HasSuffix (TrimSuffix p ".") "." = HasSuffix p ".." := by
  have hdd : "..".data = ['.', '.'] := rfl
  have hd : ".".data = ['.'] := rfl
  cases hs : HasSuffix p "." with
  | false =>
    have ht : TrimSuffix p "." = p := by
      unfold TrimSuffix
      simp [hs]
    rw [ht, hs]
    cases hs2 : HasSuffix p ".." with
    | false => rfl
    | true =>
      exfalso
      unfold HasSuffix at hs hs2
      rw [hdd, List.isSuffixOf_iff_suffix] at hs2
      obtain ⟨t, ht2⟩ := hs2
      have : (".".data).isSuffixOf p.data = true := by
        rw [hd, List.isSuffixOf_iff_suffix]
        exact ⟨t ++ ['.'], by rw [← ht2]; simp⟩
      rw [this] at hs
      cases hs
  | true =>
    have hs1 := hs
    unfold HasSuffix at hs1
    rw [hd, List.isSuffixOf_iff_suffix] at hs1
    obtain ⟨t, ht⟩ := hs1
    have htrim : (TrimSuffix p ".").data = t := by
      unfold TrimSuffix
      rw [if_pos hs, ← ht]
      simp
    unfold HasSuffix
    rw [htrim, hd, hdd, ← ht, Bool.eq_iff_iff, List.isSuffixOf_iff_suffix,
      List.isSuffixOf_iff_suffix]
    constructor
    · rintro ⟨u, hu⟩
      exact ⟨u, by rw [← hu]; simp⟩
    · rintro ⟨u, hu⟩
      refine ⟨u, ?_⟩
      have h2 : (u ++ ['.']) ++ ['.'] = t ++ ['.'] := by
        rw [← hu]
        simp
      exact List.append_cancel_right h2

/-- C14 (as stated, refuted): for a PTR target that ends with two dots, `resolve` succeeds
with a hostname that still ends with a dot: one suffix `"."` is removed, not every
trailing dot. -/
theorem resolve_trailing_dot_counterexample :
    (resolve testLib (testRDNSWith doubleDotUpstream doubleDotUpstream) [1, 1, 1, 1]).1
      = .ret "host.example." none ∧
    HasSuffix "host.example." "." = true := by
  constructor
  · rfl
  · decide

/-- C14 (amended): when `resolve` succeeds, the selected exchange has answered with a PTR
record first, and the hostname is its target `p` with exactly one trailing `"."` removed
when there is one; so the hostname ends with `"."` exactly when `p` ends with `".."`, and
it does not end with `"."` for every target that does not end with two dots. -/
theorem resolve_host_trimmed_once (lib : Lib) (r : RDNS) (ip : IP) (host : String)
    (hok : (resolve lib r ip).1 = .ret host none) :
    ∃ (arpa : String) (resp : Msg) (p : String) (rest : List RR),
      lib.ReverseAddr (lib.ipString ip) = (arpa, none) ∧
      (selectExchange r ip (ptrQuery lib arpa)).1 = (some resp, none) ∧
      resp.Answer = .PTR p :: rest ∧
      host = TrimSuffix p "." ∧
      HasSuffix host "." = HasSuffix p ".." ∧
      (HasSuffix p ".." = false → HasSuffix host "." = false) := by
  unfold resolve at hok
  rcases hrev : lib.ReverseAddr (lib.ipString ip) with ⟨arpa, _ | e⟩
  · rw [hrev] at hok
    simp only [] at hok
    rcases hx : (selectExchange r ip (ptrQuery lib arpa)).1 with ⟨_ | resp, _ | err⟩
    · rw [hx] at hok
      cases hok
    · rw [hx] at hok
      cases hok
    · rw [hx] at hok
      simp only [] at hok
      rcases ha : resp.Answer with _ | ⟨p | ⟨ty, dat⟩, rest⟩
      · rw [ha] at hok
        cases hok
      · rw [ha] at hok
        simp only [Resolved.ret.injEq, and_true] at hok
        have hh : HasSuffix host "." = HasSuffix p ".." := by
          rw [← hok]
          exact HasSuffix_TrimSuffix_dot p
        exact ⟨arpa, resp, p, rest, rfl, hx, ha, hok.symm, hh, fun h => by rw [hh, h]⟩
      · rw [ha] at hok
        cases hok
    · rw [hx] at hok
      cases hok
  · rw [hrev] at hok
    cases hok

/-- Witness of C14: the hostname `one.one.one.one` of `1.1.1.1` does not end with a
dot. -/
theorem resolve_host_trimmed_once_witness :
    (resolve testLib testRDNS [1, 1, 1, 1]).1 = .ret "one.one.one.one" none ∧
    ∃ (arpa : String) (resp : Msg) (p : String) (rest : List RR),
      testLib.ReverseAddr (testLib.ipString [1, 1, 1, 1]) = (arpa, none) ∧
      (selectExchange testRDNS [1, 1, 1, 1] (ptrQuery testLib arpa)).1 = (some resp, none) ∧
      resp.Answer = .PTR p :: rest ∧
      "one.one.one.one" = TrimSuffix p "." ∧
      HasSuffix "one.one.one.one" "." = HasSuffix p ".." ∧
      (HasSuffix p ".." = false → HasSuffix "one.one.one.one" "." = false) :=
  ⟨rfl, resolve_host_trimmed_once testLib testRDNS [1, 1, 1, 1] "one.one.one.one" rfl⟩

end RDNSModel
